import Mathlib

/-!
# wheel2conda — a verification model

A shallow embedding of `wheel2conda.py`, which converts a Python wheel
into conda packages for a fixed matrix of platforms and Python versions.
External libraries (`posixpath`, `csv`, `configparser`, `hashlib`,
`win_cli_launchers`, `tarfile`) are modelled by small Lean functions or
by explicit function parameters; everything else is translated directly
from the source.
-/

namespace Wheel2Conda

/-! ### Character-level path model

Models of the Python `posixpath` functions used by wheel2conda
(`posixpath.join`, `posixpath.normpath`, `str.split`), expressed on
`List Char` so that path algebra can be proved. -/

/-- Split a character list at every occurrence of `sep`
(model of Python `str.split(sep)` for a one-character separator). -/
def splitCh (sep : Char) : List Char → List (List Char)
  | [] => [[]]
  | c :: cs =>
    if c = sep then [] :: splitCh sep cs
    else
      match splitCh sep cs with
      | [] => [[c]]
      | p :: ps => (c :: p) :: ps

/-- Join path components with `'/'` separators. -/
def joinSlash : List (List Char) → List Char
  | [] => []
  | [p] => p
  | p :: ps => p ++ '/' :: joinSlash ps

/-- Model of `row.split('/')` on strings. -/
def splitParts (s : String) : List String :=
  (splitCh '/' s.data).map fun cs => ⟨cs⟩

/-- Inverse of `splitParts`. -/
def joinParts (ps : List String) : String :=
  ⟨joinSlash (ps.map String.data)⟩

/-- One step of the component normalisation inside
`posixpath.normpath`: drop empty and `"."` components and resolve
`".."`. -/
def normStep (acc : List String) (comp : String) : List String :=
  if comp = "" ∨ comp = "." then acc
  else if comp = ".." then
    if acc ≠ [] ∧ acc.getLast? ≠ some ".." then acc.dropLast
    else acc ++ [".."]
  else acc ++ [comp]

/-- Component normalisation inside `posixpath.normpath` for relative
paths. -/
def normparts (ps : List String) : List String :=
  ps.foldl normStep []

/-- Model of `posixpath.normpath`, restricted to relative paths (the
only paths the program normalises). -/
def posixNormpath (s : String) : String :=
  let ps := normparts (splitParts s)
  if ps = [] then "." else joinParts ps

/-- Model of two-argument `posixpath.join`. -/
def posixJoin (a b : String) : String :=
  if b.data.head? = some '/' then b
  else if a.data = [] ∨ a.data.getLast? = some '/' then a ++ b
  else a ++ "/" ++ b

/-- Model of variadic `posixpath.join(a, *parts)`. -/
def posixJoinList (a : String) (parts : List String) : String :=
  parts.foldl posixJoin a

/-- Model of Python `str.endswith`. -/
def strEndsWith (s suf : String) : Bool :=
  suf.data.isSuffixOf s.data

/-- Model of Python `str.split(sep)` on strings, for a one-character
separator. -/
def splitStr (sep : Char) (s : String) : List String :=
  (splitCh sep s.data).map fun cs => ⟨cs⟩

/-- The whitespace recognised by `str.strip()`. -/
def isPySpace (c : Char) : Bool :=
  c = ' ' ∨ c = '\t' ∨ c = '\n' ∨ c = '\r' ∨ c = '\x0b' ∨ c = '\x0c'

/-- Model of `str.strip()`. -/
def pyStrip (s : String) : String :=
  ⟨((s.data.dropWhile isPySpace).reverse.dropWhile isPySpace).reverse⟩

/-- ASCII lower-casing of one character. -/
def toLowerCh (c : Char) : Char :=
  if 'A' ≤ c ∧ c ≤ 'Z' then Char.ofNat (c.toNat + 32) else c

/-- Model of `str.lower()` (ASCII fragment, as used by configparser
option names and the Root-Is-Purelib flag). -/
def pyLower (s : String) : String := ⟨s.data.map toLowerCh⟩

/-- Model of Python `str.startswith`. -/
def strStartsWith (s pre : String) : Bool := pre.data.isPrefixOf s.data

/-- Model of the slice `s[:-1]`. -/
def strDropLast (s : String) : String := ⟨s.data.dropLast⟩

/-- Model of the slice `s[1:]`. -/
def strDropFirst (s : String) : String := ⟨s.data.drop 1⟩

/-- Model of `str.replace(c, "")` for a one-character pattern. -/
def removeChar (c : Char) (s : String) : String := ⟨s.data.filter (· ≠ c)⟩

/-- Join strings with a separator (model of `sep.join(xs)`). -/
def strIntercalate (sep : String) (xs : List String) : String :=
  ⟨(List.intersperse sep.data (xs.map String.data)).flatten⟩

/-- Concatenation of a list of strings. -/
def strConcat (xs : List String) : String := xs.foldl (· ++ ·) ""

/-! ### Platform, filesystem, and error model -/

/-- The `Platform` enum. -/
inductive Platform where
  | linux
  | osx
  | win
deriving DecidableEq, Repr

/-- `Platform.name` as used in `write_index` and the driver. -/
def Platform.name : Platform → String
  | .linux => "linux"
  | .osx => "osx"
  | .win => "win"

/-- An extracted directory tree.  File contents are byte strings,
modelled as `String`. -/
inductive FsEntry where
  | file (name : String) (contents : String)
  | dir (name : String) (children : List FsEntry)
deriving Repr

/-- The name of a directory entry (`Path.name`). -/
def FsEntry.name : FsEntry → String
  | .file n _ => n
  | .dir n _ => n

/-- Model of `Path.is_dir()`. -/
def FsEntry.isDir : FsEntry → Bool
  | .file _ _ => false
  | .dir _ _ => true

/-- One member of the produced tar archive. -/
structure TarEntry where
  name : String
  isDir : Bool
  contents : String
deriving DecidableEq, Repr

/-- Python exceptions raised by the program. -/
inductive PyErr where
  | badWheel (msg : String)
  | valueError (msg : String)
  | notImplemented (msg : String)
  | keyError (msg : String)
  | ioError (msg : String)
deriving DecidableEq, Repr

/-! ### Module-level constants of `wheel2conda.py` -/

/-- The `script_template` with its three format fields substituted. -/
def script_template (interpreter module func : String) : String :=
  "#!" ++ interpreter ++ "\nfrom " ++ module ++ " import " ++ func ++
    "\nif __name__ == \x27__main__\x27:\n    " ++ func ++ "()\n"

/-- The install-prefix placeholder (source constant `PREFIX`). -/
def PREFIX_PLACEHOLDER : String := "/opt/anaconda1anaconda2anaconda3"

/-- The fixed Python version candidates. -/
def PYTHON_VERSIONS : List String := ["3.5", "3.4", "2.7"]

/-- The fixed platform/bitness matrix. -/
def PLATFORM_PAIRS : List (Platform × String) :=
  [(.linux, "64"), (.linux, "32"), (.osx, "64"), (.win, "64"), (.win, "32")]

/-! ### Metadata parsing (`_read_metadata`) -/

/-- Split at the first occurrence of `sep`
(model of `str.split(sep, 1)`; `none` when `sep` is absent). -/
def splitOnce (sep : Char) : List Char → Option (List Char × List Char)
  | [] => none
  | c :: cs =>
    if c = sep then some ([], cs)
    else (splitOnce sep cs).map fun p => (c :: p.1, p.2)

/-- Append a value to the ordered multimap built by `_read_metadata`
(`defaultdict(list)` insertion order). -/
def addMeta (md : List (String × List String)) (k v : String) :
    List (String × List String) :=
  match md with
  | [] => [(k, [v])]
  | (k0, vs) :: rest =>
    if k0 = k then (k0, vs ++ [v]) :: rest
    else (k0, vs) :: addMeta rest k v

/-- The line loop of `_read_metadata`: colon-delimited `key: value`
lines, a blank line terminates. -/
def readMetadataLines : List String → List (String × List String) →
    Except PyErr (List (String × List String))
  | [], md => .ok md
  | line :: rest, md =>
    if pyStrip line = "" then .ok md
    else
      match splitOnce ':' (pyStrip line).data with
      | none => .error (.valueError "need more than 1 value to unpack")
      | some (k, v) =>
        readMetadataLines rest (addMeta md (pyStrip ⟨k⟩) (pyStrip ⟨v⟩))

/-- Model of `_read_metadata` applied to a file's text. -/
def _read_metadata (contents : String) :
    Except PyErr (List (String × List String)) :=
  readMetadataLines (splitStr '\n' contents) []

/-- Python `d[k][0]` on a parsed metadata mapping
(`KeyError` / `IndexError` model). -/
def meta0 (md : List (String × List String)) (k : String) :
    Except PyErr String :=
  match md.lookup k with
  | none => .error (.keyError k)
  | some [] => .error (.keyError k)
  | some (v :: _) => .ok v

/-! ### CSV model (`csv.reader` / `csv.writer`)

RECORD rows produced by wheel tooling contain no quotes or commas inside
fields, so the quoting machinery of the `csv` module is never exercised;
the model below covers exactly that fragment. -/

/-- Model of `csv.reader`: one row per line, fields split on `','`,
CR stripped, a trailing newline yields no extra row. -/
def csvParse (s : String) : List (List String) :=
  let lines := (splitStr '\n' s).map fun l =>
    if strEndsWith l "\r" then strDropLast l else l
  let lines := if lines.getLast? = some "" then lines.dropLast else lines
  lines.map fun l => if l = "" then [] else splitStr ',' l

/-- Model of repeated `csv.writer.writerow`: comma-joined,
CRLF-terminated rows. -/
def csvWrite (rows : List (List String)) : String :=
  strConcat (rows.map fun r => strIntercalate "," r ++ "\r\n")

/-! ### Entry-points parsing (`configparser`)

The source class `CaseSensitiveContextParser` assigns
`optionxfrom = staticmethod(str)` — a misspelling of `optionxform` — so
the inherited default `optionxform`, which lower-cases option names,
stays in effect. -/

/-- The option-name transform actually in effect for
`CaseSensitiveContextParser` (the inherited `ConfigParser` default). -/
def optionxform (s : String) : String := pyLower s

/-- Find the first `'='` or `':'` delimiter on an option line
(model of configparser option/value splitting). -/
def splitOnceAny (seps : List Char) : List Char → Option (List Char × List Char)
  | [] => none
  | c :: cs =>
    if seps.contains c then some ([], cs)
    else (splitOnceAny seps cs).map fun p => (c :: p.1, p.2)

/-- Record an option under a section, preserving declaration order. -/
def iniAddOption (secs : List (String × List (String × String)))
    (sec k v : String) : List (String × List (String × String)) :=
  match secs with
  | [] => [(sec, [(k, v)])]
  | (s, opts) :: rest =>
    if s = sec then (s, opts ++ [(k, v)]) :: rest
    else (s, opts) :: iniAddOption rest sec k v

/-- Start a section if it is not present yet. -/
def iniAddSection (secs : List (String × List (String × String)))
    (sec : String) : List (String × List (String × String)) :=
  if (secs.lookup sec).isSome then secs else secs ++ [(sec, [])]

/-- Line loop of the `ConfigParser.read` model: bracketed section
headers, options split at the first `'='`/`':'`, names passed through
`optionxform`, blank and comment lines skipped. -/
def iniParseGo : List String → Option String →
    List (String × List (String × String)) →
    List (String × List (String × String))
  | [], _, secs => secs
  | line :: rest, cur, secs =>
    let l := pyStrip line
    if l = "" ∨ strStartsWith l "#" ∨ strStartsWith l ";" then
      iniParseGo rest cur secs
    else if strStartsWith l "[" ∧ strEndsWith l "]" then
      let sec := strDropLast (strDropFirst l)
      iniParseGo rest (some sec) (iniAddSection secs sec)
    else
      match cur, splitOnceAny ['=', ':'] l.data with
      | some sec, some (k, v) =>
        iniParseGo rest cur
          (iniAddOption secs sec (optionxform (pyStrip ⟨k⟩))
            (pyStrip ⟨v⟩))
      | _, _ => iniParseGo rest cur secs

/-- Model of `CaseSensitiveContextParser().read` on a file's lines. -/
def iniParse (lines : List String) :
    List (String × List (String × String)) :=
  iniParseGo lines none []

/-! ### `WheelContents` -/

/-- The extracted wheel plus its parsed `METADATA` mapping. -/
structure WheelContents where
  unpacked : List FsEntry
  metadata : List (String × List String)

/-- Model of `WheelContents.find_dist_info`: the first top-level entry
whose name ends in `.dist-info` (directory iteration order is the list
order). -/
def find_dist_info : List FsEntry → Except PyErr FsEntry
  | [] => .error (.badWheel "Didn\x27t find .dist-info directory")
  | x :: xs =>
    if strEndsWith x.name ".dist-info" then .ok x else find_dist_info xs

/-- Look up a regular file among a directory entry's children
(model of `(dir / name).open()` and `.is_file()`). -/
def childFile : List FsEntry → String → Option String
  | [], _ => none
  | .file m c :: rest, n => if m = n then some c else childFile rest n
  | .dir _ _ :: rest, n => childFile rest n

/-- `findChildFile e n` is the contents of the regular file `n` inside
the directory `e`, if any. -/
def findChildFile : FsEntry → String → Option String
  | .file _ _, _ => none
  | .dir _ cs, n => childFile cs n

/-- Model of `WheelContents.__init__` after extraction: parse `METADATA`
from the dist-info directory. -/
def mkWheelContents (unpacked : List FsEntry) : Except PyErr WheelContents := do
  let di ← find_dist_info unpacked
  match findChildFile di "METADATA" with
  | none => .error (.ioError "METADATA")
  | some c => do
    let md ← _read_metadata c
    .ok ⟨unpacked, md⟩

/-- The dist-info / data-dir scanning loop of `WheelContents.check`. -/
def checkScan : List FsEntry → Option FsEntry → Option FsEntry →
    Except PyErr (Option FsEntry × Option FsEntry)
  | [], di, dd => .ok (di, dd)
  | x :: xs, di, dd => do
    let di ← if strEndsWith x.name ".dist-info" then
        if ¬ x.isDir then .error (.badWheel ".dist-info not a directory")
        else if di.isSome then
          .error (.badWheel "Multiple .dist-info directories")
        else .ok (some x)
      else .ok di
    let dd ← if strEndsWith x.name ".data" then
        if ¬ x.isDir then .error (.badWheel ".data not a directory")
        else if dd.isSome then
          .error (.badWheel "Multiple .data directories")
        else .ok (some x)
      else .ok dd
    checkScan xs di dd

/-- Model of `WheelContents.check`. -/
def check (wc : WheelContents) : Except PyErr Unit := do
  let (di, _dd) ← checkScan wc.unpacked none none
  match di with
  | none => .error (.badWheel "Didn\x27t find .dist-info directory")
  | some dist_info => do
    let wheelTxt ← match findChildFile dist_info "WHEEL" with
      | none => .error (.ioError "WHEEL")
      | some c => .ok c
    let wheel_metadata ← _read_metadata wheelTxt
    let wv ← meta0 wheel_metadata "Wheel-Version"
    if wv ≠ "1.0" then
      .error (.badWheel "wheel2conda only knows about wheel format 1.0")
    else do
      let purelib ← meta0 wheel_metadata "Root-Is-Purelib"
      if pyLower purelib ≠ "true" then
        .error (.badWheel "Can\x27t currently autoconvert packages with platlib")
      else if (wc.metadata.lookup "Name").isNone then
        .error (.badWheel "Missing required metadata field: Name")
      else if (wc.metadata.lookup "Version").isNone then
        .error (.badWheel "Missing required metadata field: Version")
      else .ok ()

/-- Model of `WheelContents.filter_compatible_pythons`.  Python set
equality of the tag-prefix comprehension against a singleton literal is
modelled through `List.dedup`. -/
def filter_compatible_pythons (wc : WheelContents) :
    Except PyErr (List String) := do
  let viaReq ← match wc.metadata.lookup "Requires-Python" with
    | none => .ok none
    | some [] => .error (.keyError "Requires-Python")
    | some (rp :: _) =>
      if strStartsWith rp "3" ∨ strStartsWith rp ">3" ∨
          strStartsWith rp ">=3" then
        .ok (some (PYTHON_VERSIONS.filter fun p => !(strStartsWith p "2.")))
      else if rp = "<3" ∨ rp = "<3.0" then
        .ok (some (PYTHON_VERSIONS.filter fun p => strStartsWith p "2."))
      else .ok none
  match viaReq with
  | some vs => .ok vs
  | none => do
    let di ← find_dist_info wc.unpacked
    let wheelTxt ← match findChildFile di "WHEEL" with
      | none => .error (.ioError "WHEEL")
      | some c => .ok c
    let wheel_metadata ← _read_metadata wheelTxt
    let tags ← match wheel_metadata.lookup "Tag" with
      | none => .error (.keyError "Tag")
      | some ts => .ok ts
    let py_tags := (tags.map fun t => (splitStr '-' t).headD "").dedup
    if py_tags = ["py3"] then
      .ok (PYTHON_VERSIONS.filter fun p => !(strStartsWith p "2."))
    else if py_tags = ["py2"] then
      .ok (PYTHON_VERSIONS.filter fun p => strStartsWith p "2.")
    else .ok PYTHON_VERSIONS

/-! ### `PackageBuilder` state and helpers -/

/-- The builder state mutated through one build
(`self.files`, `self.has_prefix_files`, `self.py_record_extra`). -/
structure PBState where
  files : List String
  has_prefix_files : List String
  py_record_extra : List (String × String × Nat)
deriving DecidableEq, Repr

/-- One `PackageBuilder`.  The external `hashlib.sha256` digest and the
`win_cli_launchers.find_exe` resource lookup (composed with reading the
launcher's bytes) are injected as function parameters. -/
structure PackageBuilder where
  wheel_contents : WheelContents
  python_version : String
  platform : Platform
  bitness : String
  sha256 : String → List Nat
  find_exe : String → String

/-- The fixed build counter (`self.build_no`, set to 0 in `__init__`). -/
def build_no : Nat := 0

/-- `PackageBuilder.record_file`. -/
def record_file (st : PBState) (arcname : String) (hasPfx : Bool) : PBState :=
  { st with
    files := st.files ++ [arcname]
    has_prefix_files :=
      if hasPfx then st.has_prefix_files ++ [arcname]
      else st.has_prefix_files }

/-- `os.path.relpath` composition along the `os.walk` descent. -/
def relJoin (rel n : String) : String :=
  if rel = "." then n else rel ++ "/" ++ n

/-- The filenames yielded for one directory level of `os.walk`. -/
def filesHere (rel : String) (cs : List FsEntry) : List (String × String) :=
  cs.filterMap fun e =>
    match e with
    | .file n _ => some (rel, n)
    | .dir _ _ => none

mutual
/-- The `(rel_dirpath, filename)` pairs yielded by the recursive part of
`os.walk` (top-down, children in directory order). -/
def walkDirs (rel : String) : List FsEntry → List (String × String)
  | [] => []
  | e :: es => walkEntry rel e ++ walkDirs rel es

/-- The walk below one child entry: a directory is entered (its files
first, then its subdirectories), a file yields nothing at this level. -/
def walkEntry (rel : String) : FsEntry → List (String × String)
  | .file _ _ => []
  | .dir n cs => filesHere (relJoin rel n) cs ++ walkDirs (relJoin rel n) cs
end

/-- All `(rel_dirpath, filename)` pairs of `os.walk` over a directory's
children, in yield order. -/
def osWalkFiles (cs : List FsEntry) : List (String × String) :=
  filesHere "." cs ++ walkDirs "." cs

/-- The recorded path of one `os.walk` yield inside
`record_file_or_dir`: `posixpath.normpath(posixpath.join(arcname,
rel_dirpath, filename))`. -/
def recPath (arcname : String) (pr : String × String) : String :=
  posixNormpath (posixJoin (posixJoin arcname pr.1) pr.2)

/-- `PackageBuilder.record_file_or_dir`. -/
def record_file_or_dir (st : PBState) (arcname : String) (src : FsEntry) :
    PBState :=
  match src with
  | .dir _ cs =>
    (osWalkFiles cs).foldl
      (fun st pr => record_file st (recPath arcname pr) false)
      st
  | .file _ _ => record_file st arcname false

/-- `PackageBuilder.site_packages_path`. -/
def site_packages_path (pb : PackageBuilder) : String :=
  if pb.platform = .win then "Lib/site-packages/"
  else "lib/python" ++ pb.python_version ++ "/site-packages/"

/-- `PackageBuilder.scripts_path`. -/
def scripts_path (pb : PackageBuilder) : String :=
  if pb.platform = .win then "Scripts/" else "bin/"

mutual
/-- Model of `TarFile.add`, with a keep-filter: `exclude_record` maps to
the names the filter keeps.  A filtered-out directory prunes its whole
subtree, as in `tarfile`. -/
def tfAdd (keep : String → Bool) : FsEntry → String → List TarEntry
  | .file _ contents, arcname =>
    if keep arcname then [⟨arcname, false, contents⟩] else []
  | .dir _ cs, arcname =>
    if keep arcname then ⟨arcname, true, ""⟩ :: tfAddChildren keep cs arcname
    else []

/-- Recursive descent of `TarFile.add` over a directory's children. -/
def tfAddChildren (keep : String → Bool) :
    List FsEntry → String → List TarEntry
  | [], _ => []
  | e :: es, arcname =>
    tfAdd keep e (arcname ++ "/" ++ e.name) ++ tfAddChildren keep es arcname
end

/-! ### Hash bookkeeping (`_py_record_file`) -/

/-- The URL-safe base64 alphabet. -/
def b64Alphabet : List Char :=
  "ABCDEFGHIJKLMNOPQRSTUVWXYZabcdefghijklmnopqrstuvwxyz0123456789-_".data

/-- Character lookup in the URL-safe base64 alphabet. -/
def b64Char (n : Nat) : Char := b64Alphabet.getD n 'A'

/-- Model of `base64.urlsafe_b64encode` on a digest byte list
(entries below 256). -/
def b64urlEncode : List Nat → List Char
  | [] => []
  | [a] => [b64Char (a / 4), b64Char (a % 4 * 16), '=', '=']
  | [a, b] =>
    [b64Char (a / 4), b64Char (a % 4 * 16 + b / 16), b64Char (b % 16 * 4), '=']
  | a :: b :: c :: rest =>
    [b64Char (a / 4), b64Char (a % 4 * 16 + b / 16),
      b64Char (b % 16 * 4 + c / 64), b64Char (c % 64)] ++ b64urlEncode rest

/-- Model of `str.rstrip('=')`. -/
def rstripEq (cs : List Char) : List Char :=
  (cs.reverse.dropWhile (· = '=')).reverse

/-- `PackageBuilder._py_record_file`: sha256 digest, URL-safe base64
with padding stripped and a `sha256=` tag, plus the byte length of the
contents (`String.utf8ByteSize` is the length of the written bytes). -/
def _py_record_file (pb : PackageBuilder) (st : PBState)
    (relpath contents : String) : PBState :=
  let digest : String := ⟨rstripEq (b64urlEncode (pb.sha256 contents))⟩
  { st with py_record_extra :=
      st.py_record_extra ++
        [(relpath, "sha256=" ++ digest, contents.utf8ByteSize)] }

/-! ### Launcher synthesis (`create_scripts`) -/

/-- `PackageBuilder._write_script_unix`. -/
def _write_script_unix (pb : PackageBuilder) (st : PBState)
    (name contents : String) : List TarEntry × PBState :=
  let path := scripts_path pb ++ name
  let st := record_file st path true
  let st := _py_record_file pb st path contents
  ([⟨path, false, contents⟩], st)

/-- `PackageBuilder._write_script_windows`. -/
def _write_script_windows (pb : PackageBuilder) (st : PBState)
    (name contents : String) : List TarEntry × PBState :=
  let (t1, st) := _write_script_unix pb st (name ++ "-script.py") contents
  let arch := if pb.bitness = "64" then "x64" else "x86"
  let exeBytes := pb.find_exe arch
  let dst := scripts_path pb ++ name ++ ".exe"
  let st := record_file st dst false
  let st := _py_record_file pb st dst exeBytes
  (t1 ++ [⟨dst, false, exeBytes⟩], st)

/-- Model of `str.count(':')`. -/
def countColon (s : String) : Nat := s.data.count ':'

/-- Per-entry-point body of `PackageBuilder.create_scripts`. -/
def createScript1 (pb : PackageBuilder) (acc : List TarEntry × PBState)
    (nameEp : String × String) : Except PyErr (List TarEntry × PBState) :=
  let (name, ep) := nameEp
  if countColon ep ≠ 1 then
    .error (.valueError ("Bad entry point: \x27" ++ ep ++ "\x27"))
  else
    let parts := splitStr ':' ep
    let module := parts.headD ""
    let func := parts.getD 1 ""
    let s := script_template (PREFIX_PLACEHOLDER ++ "/bin/python") module func
    if pb.platform = .win then
      let r := _write_script_windows pb acc.2 name s
      .ok (acc.1 ++ r.1, r.2)
    else
      let r := _write_script_unix pb acc.2 name s
      .ok (acc.1 ++ r.1, r.2)

/-- `PackageBuilder.create_scripts`. -/
def create_scripts (pb : PackageBuilder) (st : PBState) :
    Except PyErr (List TarEntry × PBState) := do
  let di ← find_dist_info pb.wheel_contents.unpacked
  match findChildFile di "entry_points.txt" with
  | none => .ok ([], st)
  | some epText =>
    let cp := iniParse (splitStr '\n' epText)
    match cp.lookup "console_scripts" with
    | none => .error (.keyError "console_scripts")
    | some eps => eps.foldlM (createScript1 pb) ([], st)

/-! ### Manifest emission -/

/-- The per-row rewrite of `write_pep376_record`: rows whose path lies
under `<name>.data/data/` are re-rooted onto the escape relative path;
all other rows, and the non-path columns of every row, pass through. -/
def rewritePep376Row (prefix_from_site_pkgs : String) (row : List String) :
    List String :=
  match row with
  | [] => []
  | p :: rest =>
    let path_parts := splitParts p
    if path_parts.length > 2 ∧ strEndsWith (path_parts.headD "") ".data" ∧
        path_parts.getD 1 "" = "data" then
      posixJoinList prefix_from_site_pkgs (path_parts.drop 2) :: rest
    else p :: rest

/-- `PackageBuilder.write_pep376_record`. -/
def write_pep376_record (pb : PackageBuilder) (st : PBState) :
    Except PyErr TarEntry := do
  let prefix_from_site_pkgs :=
    if pb.platform = .win then "../.." else "../../.."
  let di ← find_dist_info pb.wheel_contents.unpacked
  let recTxt ← match findChildFile di "RECORD" with
    | none => .error (.ioError "RECORD")
    | some c => .ok c
  let outRows := (csvParse recTxt).map (rewritePep376Row prefix_from_site_pkgs)
  let extraRows := st.py_record_extra.map fun r =>
    [posixJoin prefix_from_site_pkgs r.1, r.2.1, toString r.2.2]
  let record_path := site_packages_path pb ++ di.name ++ "/RECORD"
  .ok ⟨record_path, false, csvWrite (outRows ++ extraRows)⟩

/-- JSON values appearing in `info/index.json`. -/
inductive JVal where
  | str (s : String)
  | num (n : Nat)
  | arr (xs : List JVal)
deriving Repr

mutual
/-- Serialisation of a JSON value (the emitted fields hold no characters
needing escapes). -/
def JVal.dump : JVal → String
  | .str s => "\x22" ++ s ++ "\x22"
  | .num n => toString n
  | .arr xs => "[" ++ JVal.dumpList xs ++ "]"

/-- Comma-separated serialisation of a JSON array's elements. -/
def JVal.dumpList : List JVal → String
  | [] => ""
  | [x] => JVal.dump x
  | x :: xs => JVal.dump x ++ ", " ++ JVal.dumpList xs
end

/-- Code-point lexicographic comparison of character lists (the string
order used by `sort_keys=True`). -/
def charListLe : List Char → List Char → Bool
  | [], _ => true
  | _ :: _, [] => false
  | a :: as, b :: bs => if a = b then charListLe as bs else decide (a < b)

/-- Lexicographic string comparison on the character level. -/
def strLeB (a b : String) : Bool := charListLe a.data b.data

/-- Insertion into a key-sorted association list. -/
def insertByKey (kv : String × JVal) :
    List (String × JVal) → List (String × JVal)
  | [] => [kv]
  | x :: xs => if strLeB kv.1 x.1 then kv :: x :: xs else x :: insertByKey kv xs

/-- Key sort used to model `json.dumps(..., sort_keys=True)`. -/
def sortByKey : List (String × JVal) → List (String × JVal)
  | [] => []
  | x :: xs => insertByKey x (sortByKey xs)

/-- `json.dumps(ix, sort_keys=True)` model: keys sorted, then dumped
(the `indent=2` whitespace is abstracted away). -/
def jsonDumpSorted (pairs : List (String × JVal)) : String :=
  "\x7b" ++ strIntercalate ", "
    ((sortByKey pairs).map fun kv =>
      "\x22" ++ kv.1 ++ "\x22: " ++ JVal.dump kv.2) ++ "\x7d"

/-- The index dictionary of `write_index`, in the source literal's
order. -/
def indexPairs (pb : PackageBuilder) : Except PyErr (List (String × JVal)) := do
  let py_version_nodot := removeChar '.' pb.python_version
  let name ← meta0 pb.wheel_contents.metadata "Name"
  let version ← meta0 pb.wheel_contents.metadata "Version"
  .ok
    [("arch", .str (if pb.bitness = "64" then "x86_64" else "x86")),
     ("build", .str ("py" ++ py_version_nodot ++ "_" ++ toString build_no)),
     ("build_number", .num build_no),
     ("depends", .arr [.str ("python " ++ pb.python_version ++ "*")]),
     ("license", .str "UNKNOWN"),
     ("name", .str name),
     ("platform", .str pb.platform.name),
     ("subdir", .str (pb.platform.name ++ "-" ++ pb.bitness)),
     ("version", .str version)]

/-- `PackageBuilder.write_index`. -/
def write_index (pb : PackageBuilder) : Except PyErr TarEntry := do
  let ix ← indexPairs pb
  .ok ⟨"info/index.json", false, jsonDumpSorted ix⟩

/-- `PackageBuilder.write_has_prefix_list`. -/
def write_has_prefix_list (st : PBState) : TarEntry :=
  ⟨"info/has_prefix", false,
    strIntercalate "\n"
      (st.has_prefix_files.map fun path =>
        PREFIX_PLACEHOLDER ++ " text " ++ path)⟩

/-- `PackageBuilder.write_files_list`. -/
def write_files_list (st : PBState) : TarEntry :=
  ⟨"info/files", false, strIntercalate "\n" st.files⟩

/-! ### Module copying and the build orchestration -/

/-- Inner loop of `_add_data_dir` over the children of the
`<name>.data/data/` directory. -/
def addDataFiles (acc : List TarEntry × PBState) (fs : List FsEntry) :
    List TarEntry × PBState :=
  fs.foldl
    (fun acc f =>
      (acc.1 ++ tfAdd (fun _ => true) f f.name,
        record_file_or_dir acc.2 f.name f))
    acc

/-- `PackageBuilder._add_data_dir` (iterating a non-directory raises
`NotADirectoryError`, modelled as an IO error). -/
def _add_data_dir (acc : List TarEntry × PBState) (src : FsEntry) :
    Except PyErr (List TarEntry × PBState) :=
  match src with
  | .file _ _ => .error (.ioError "NotADirectoryError")
  | .dir _ ds =>
    ds.foldlM
      (fun acc d =>
        if d.name = "data" then
          match d with
          | .file _ _ => .error (.ioError "NotADirectoryError")
          | .dir _ fs => .ok (addDataFiles acc fs)
        else .error (.notImplemented (d.name ++ " under data dir")))
      acc

/-- Per-top-level-entry body of `PackageBuilder.add_module`. -/
def addModule1 (pb : PackageBuilder) (acc : List TarEntry × PBState)
    (src : FsEntry) : Except PyErr (List TarEntry × PBState) :=
  if strEndsWith src.name ".data" then _add_data_dir acc src
  else
    let dst := site_packages_path pb ++ src.name
    if strEndsWith src.name ".dist-info" then
      .ok (acc.1 ++ tfAdd (fun n => !(strEndsWith n "RECORD")) src dst,
        record_file_or_dir acc.2 dst src)
    else
      .ok (acc.1 ++ tfAdd (fun _ => true) src dst,
        record_file_or_dir acc.2 dst src)

/-- `PackageBuilder.add_module`. -/
def add_module (pb : PackageBuilder) (st : PBState) :
    Except PyErr (List TarEntry × PBState) :=
  pb.wheel_contents.unpacked.foldlM (addModule1 pb) ([], st)

/-- `PackageBuilder.build`: the archive members in write order together
with the final recorded state. -/
def build (pb : PackageBuilder) : Except PyErr (List TarEntry × PBState) := do
  let (t1, st1) ← add_module pb ⟨[], [], []⟩
  let (t2, st2) ← create_scripts pb st1
  let rec376 ← write_pep376_record pb st2
  let index ← write_index pb
  .ok (t1 ++ t2 ++
    [rec376, index, write_has_prefix_list st2, write_files_list st2], st2)

/-! ### The driver (`main`) -/

/-- One output archive of the driver loop: target directory, file name,
archive members, and final builder state. -/
structure BuiltPackage where
  dirname : String
  filename : String
  members : List TarEntry
  state : PBState

/-- Model of `main` (externals injected as in `PackageBuilder`):
construct `WheelContents`, run `check`, then build one package per
platform/bitness pair and compatible Python version. -/
def mainModel (unpacked : List FsEntry) (sha256 : String → List Nat)
    (find_exe : String → String) : Except PyErr (List BuiltPackage) := do
  let wc ← mkWheelContents unpacked
  check wc
  PLATFORM_PAIRS.foldlM
    (fun acc pr => do
      let vers ← filter_compatible_pythons wc
      vers.foldlM
        (fun acc py_version => do
          let pb : PackageBuilder :=
            ⟨wc, py_version, pr.1, pr.2, sha256, find_exe⟩
          let name ← meta0 wc.metadata "Name"
          let version ← meta0 wc.metadata "Version"
          let filename := name ++ "-" ++ version ++ "-py" ++
            removeChar '.' py_version ++ "_0.tar.bz2"
          let (members, st) ← build pb
          .ok (acc ++ [⟨pr.1.name ++ "-" ++ pr.2, filename, members, st⟩]))
        acc)
    []

/-! ### Derived views and well-formedness predicates -/

/-- The names of the regular-file members of an archive. -/
def tarRegularFiles (ts : List TarEntry) : List String :=
  (ts.filter fun e => !e.isDir).map (·.name)

/-- The names of the directory members of an archive. -/
def tarDirNames (ts : List TarEntry) : List String :=
  (ts.filter fun e => e.isDir).map (·.name)

/-- A path component that `posixpath.normpath` keeps unchanged. -/
def cleanPart (p : String) : Prop := p ≠ "" ∧ p ≠ "." ∧ p ≠ ".."

instance : DecidablePred cleanPart := fun p => by
  unfold cleanPart; infer_instance

/-- A relative path all of whose components are clean. -/
def CleanPath (s : String) : Prop := ∀ p ∈ splitParts s, cleanPart p

instance : DecidablePred CleanPath := fun s => by
  unfold CleanPath; infer_instance

/-- A filesystem name that is a single clean path component. -/
def cleanNameB (s : String) : Bool :=
  s ≠ "" && s ≠ "." && s ≠ ".." && !s.data.contains '/'

mutual
/-- Every name in a tree is a single clean path component. -/
def cleanTreeB : FsEntry → Bool
  | .file n _ => cleanNameB n
  | .dir n cs => cleanNameB n && cleanListB cs

/-- `cleanTreeB` over a list of entries. -/
def cleanListB : List FsEntry → Bool
  | [] => true
  | e :: es => cleanTreeB e && cleanListB es
end

/-- The list of paths `record_file_or_dir` records for one source
entry. -/
def recordedPaths (arcname : String) (src : FsEntry) : List String :=
  match src with
  | .dir _ cs => (osWalkFiles cs).map (recPath arcname)
  | .file _ _ => [arcname]

/-- The archive directory corresponding to a walk position. -/
def dirOf (d rel : String) : String :=
  if rel = "." then d else d ++ "/" ++ rel

/-- The recorded paths of one `add_module` entry that end up in the
archive only later, through `write_pep376_record` (the deferred RECORD
file of a dist-info directory). -/
def recordExcess (pb : PackageBuilder) (e : FsEntry) : List String :=
  if strEndsWith e.name ".data" then []
  else if strEndsWith e.name ".dist-info" then
    [site_packages_path pb ++ e.name ++ "/RECORD"]
  else []

/-- Well-behaved dist-info directory: among its archive members the only
name ending in `RECORD` is the top-level `RECORD` file itself, and no
directory member's name ends in `RECORD` (real wheels satisfy this). -/
def RecordTidy (pb : PackageBuilder) (e : FsEntry) : Prop :=
  strEndsWith e.name ".dist-info" = true →
    ((tarRegularFiles (tfAdd (fun _ => true) e
          (site_packages_path pb ++ e.name))).filter
        (fun n => strEndsWith n "RECORD") =
      [site_packages_path pb ++ e.name ++ "/RECORD"]) ∧
    ∀ dn ∈ tarDirNames (tfAdd (fun _ => true) e
        (site_packages_path pb ++ e.name)),
      strEndsWith dn "RECORD" = false

instance (pb : PackageBuilder) (e : FsEntry) : Decidable (RecordTidy pb e) := by
  unfold RecordTidy
  infer_instance

/-! ### Concrete fixtures used as witnesses -/

/-- A small, well-formed dist-info directory. -/
def sampleDistInfo : FsEntry := .dir "foo-1.0.dist-info" [
  .file "METADATA" "Name: foo\nVersion: 1.0\n",
  .file "WHEEL"
    "Wheel-Version: 1.0\nRoot-Is-Purelib: true\nTag: py2-none-any\nTag: py3-none-any\n",
  .file "RECORD" "foo.py,sha256=abc,10\r\nfoo-1.0.dist-info/METADATA,sha256=def,20\r\n",
  .file "entry_points.txt" "[console_scripts]\nfoo = pkgmod:main\n"]

/-- A small, well-formed extracted wheel. -/
def sampleUnpacked : List FsEntry :=
  [.file "foo.py" "x = 1\n",
   .dir "pkg" [.file "__init__.py" "", .dir "sub" [.file "a.py" "a"]],
   sampleDistInfo]

/-- A stand-in for the `hashlib.sha256` digest. -/
def dummySha : String → List Nat := fun _ => List.replicate 32 7

/-- A stand-in for the launcher-stub resource provider. -/
def dummyExe : String → String := fun a => "EXE-" ++ a

/-- The metadata mapping parsed from `sampleDistInfo`. -/
def sampleMeta : List (String × List String) :=
  [("Name", ["foo"]), ("Version", ["1.0"])]

/-- `WheelContents` over the sample wheel. -/
def sampleWC : WheelContents := ⟨sampleUnpacked, sampleMeta⟩

/-- A linux-64, Python 3.5 builder over the sample wheel. -/
def samplePB : PackageBuilder :=
  ⟨sampleWC, "3.5", .linux, "64", dummySha, dummyExe⟩

/-- A windows-64, Python 3.5 builder over the sample wheel. -/
def samplePBWin : PackageBuilder :=
  ⟨sampleWC, "3.5", .win, "64", dummySha, dummyExe⟩

/-- The archive and final state produced by building the sample wheel
for linux-64 / Python 3.5. -/
def sampleBuildResult : List TarEntry × PBState :=
  (build samplePB).toOption.getD ([], ⟨[], [], []⟩)

/-- The sample wheel with a mixed-case console-script name. -/
def caseUnpacked : List FsEntry :=
  [.file "foo.py" "x = 1\n",
   .dir "foo-1.0.dist-info" [
     .file "METADATA" "Name: foo\nVersion: 1.0\n",
     .file "WHEEL" "Wheel-Version: 1.0\nRoot-Is-Purelib: true\nTag: py3-none-any\n",
     .file "RECORD" "foo.py,sha256=abc,10\r\n",
     .file "entry_points.txt" "[console_scripts]\nFoo = pkgmod:main\n"]]

/-- Builder over `caseUnpacked`. -/
def casePB : PackageBuilder :=
  ⟨⟨caseUnpacked, sampleMeta⟩, "3.5", .linux, "64", dummySha, dummyExe⟩

/-- The dist-info directory of the malformed-entry-point wheel. -/
def badEpDistInfo : FsEntry :=
  .dir "foo-1.0.dist-info" [
    .file "METADATA" "Name: foo\nVersion: 1.0\n",
    .file "WHEEL" "Wheel-Version: 1.0\nRoot-Is-Purelib: true\nTag: py3-none-any\n",
    .file "RECORD" "foo.py,sha256=abc,10\r\n",
    .file "entry_points.txt" "[console_scripts]\nfoo = badvalue\n"]

/-- The sample wheel with a malformed console entry point. -/
def badEpUnpacked : List FsEntry :=
  [.file "foo.py" "x = 1\n", badEpDistInfo]

/-- Builder over `badEpUnpacked`. -/
def badEpPB : PackageBuilder :=
  ⟨⟨badEpUnpacked, sampleMeta⟩, "3.5", .linux, "64", dummySha, dummyExe⟩

/-- The sample wheel with a degenerate (empty-module) entry point. -/
def degenerateEpUnpacked : List FsEntry :=
  [.file "foo.py" "x = 1\n",
   .dir "foo-1.0.dist-info" [
     .file "METADATA" "Name: foo\nVersion: 1.0\n",
     .file "WHEEL" "Wheel-Version: 1.0\nRoot-Is-Purelib: true\nTag: py3-none-any\n",
     .file "RECORD" "foo.py,sha256=abc,10\r\n",
     .file "entry_points.txt" "[console_scripts]\nfoo = :main\n"]]

/-- Builder over `degenerateEpUnpacked`. -/
def degenerateEpPB : PackageBuilder :=
  ⟨⟨degenerateEpUnpacked, sampleMeta⟩, "3.5", .linux, "64", dummySha, dummyExe⟩

/-- The dist-info directory declaring the unsupported format 2.0. -/
def badVersionDistInfo : FsEntry :=
  .dir "foo-1.0.dist-info" [
    .file "METADATA" "Name: foo\nVersion: 1.0\n",
    .file "WHEEL" "Wheel-Version: 2.0\nRoot-Is-Purelib: true\nTag: py3-none-any\n",
    .file "RECORD" "foo.py,sha256=abc,10\r\n"]

/-- A wheel declaring the unsupported format version 2.0. -/
def badVersionUnpacked : List FsEntry :=
  [.file "foo.py" "x = 1\n", badVersionDistInfo]

/-- A builder over a wheel that has no entry-points record
(`badVersionUnpacked` carries none; `create_scripts` never reads
WHEEL). -/
def noEpPB : PackageBuilder :=
  ⟨⟨badVersionUnpacked, sampleMeta⟩, "3.5", .linux, "64", dummySha, dummyExe⟩

/-- The module-copy result for the malformed-entry-point wheel. -/
def badEpModuleResult : List TarEntry × PBState :=
  (add_module badEpPB ⟨[], [], []⟩).toOption.getD ([], ⟨[], [], []⟩)

/-- A wheel whose metadata requires Python 3 or newer. -/
def py3ReqUnpacked : List FsEntry :=
  [.file "foo.py" "x = 1\n",
   .dir "foo-1.0.dist-info" [
     .file "METADATA" "Name: foo\nVersion: 1.0\nRequires-Python: >=3\n",
     .file "WHEEL" "Wheel-Version: 1.0\nRoot-Is-Purelib: true\nTag: py3-none-any\n",
     .file "RECORD" "foo.py,sha256=abc,10\r\n"]]

/-- `WheelContents` for the Requires-Python wheel. -/
def py3ReqWC : WheelContents :=
  ⟨py3ReqUnpacked,
   [("Name", ["foo"]), ("Version", ["1.0"]), ("Requires-Python", [">=3"])]⟩

/-! ### Lemmas: path algebra -/

theorem splitCh_ne_nil (sep : Char) (cs : List Char) : splitCh sep cs ≠ [] := by
  induction cs with
  | nil => simp [splitCh]
  | cons c cs ih =>
    simp only [splitCh]
    split
    · simp
    · cases h : splitCh sep cs with
      | nil => exact absurd h ih
      | cons p ps => simp

theorem splitCh_append (sep : Char) (cs ds : List Char) :
    splitCh sep (cs ++ sep :: ds) = splitCh sep cs ++ splitCh sep ds := by
  induction cs with
  | nil => simp [splitCh]
  | cons c cs ih =>
    by_cases hc : c = sep
    · subst hc
      simp only [List.cons_append, splitCh, if_pos rfl]
      simp only [List.append_eq]
      rw [ih]
      simp
    · simp only [List.cons_append, splitCh, if_neg hc]
      simp only [List.append_eq]
      rw [ih]
      cases h : splitCh sep cs with
      | nil => exact absurd h (splitCh_ne_nil sep cs)
      | cons p ps => simp

theorem splitCh_no_sep (sep : Char) (cs : List Char) (h : sep ∉ cs) :
    splitCh sep cs = [cs] := by
  induction cs with
  | nil => rfl
  | cons c cs ih =>
    have hc : ¬ c = sep := fun e => h (e ▸ List.mem_cons_self c cs)
    have hm : sep ∉ cs := fun m => h (List.mem_cons_of_mem _ m)
    simp [splitCh, if_neg hc, ih hm]

theorem joinSlash_splitCh (cs : List Char) : joinSlash (splitCh '/' cs) = cs := by
  induction cs with
  | nil => rfl
  | cons c cs ih =>
    by_cases hc : c = '/'
    · subst hc
      simp only [splitCh, if_pos rfl]
      cases h : splitCh '/' cs with
      | nil => exact absurd h (splitCh_ne_nil _ _)
      | cons p ps =>
        rw [h] at ih
        simp [joinSlash, ih]
    · simp only [splitCh, if_neg hc]
      cases h : splitCh '/' cs with
      | nil => exact absurd h (splitCh_ne_nil _ _)
      | cons p ps =>
        rw [h] at ih
        cases ps with
        | nil => simp_all [joinSlash]
        | cons q qs =>
          simp only [joinSlash] at ih ⊢
          simp [← ih]

theorem joinSlash_append (ps qs : List (List Char)) (hp : ps ≠ []) (hq : qs ≠ []) :
    joinSlash (ps ++ qs) = joinSlash ps ++ '/' :: joinSlash qs := by
  induction ps with
  | nil => exact absurd rfl hp
  | cons p ps ih =>
    cases ps with
    | nil =>
      cases qs with
      | nil => exact absurd rfl hq
      | cons q qs => simp [joinSlash]
    | cons r rs =>
      have h2 := ih (by simp)
      simp only [List.cons_append] at h2
      show p ++ '/' :: joinSlash (r :: (rs ++ qs)) =
        (p ++ '/' :: joinSlash (r :: rs)) ++ '/' :: joinSlash qs
      rw [h2]
      simp [List.append_assoc]

theorem nil_mem_splitCh_of_head (sep : Char) (cs : List Char)
    (h : cs.head? = some sep) : [] ∈ splitCh sep cs := by
  cases cs with
  | nil => simp at h
  | cons c cs =>
    simp at h
    subst h
    simp [splitCh]

theorem nil_mem_splitCh_of_last (sep : Char) (cs : List Char)
    (h : cs.getLast? = some sep) : [] ∈ splitCh sep cs := by
  have hne : cs ≠ [] := by rintro rfl; simp at h
  have hdecomp : cs.dropLast ++ [cs.getLast hne] = cs :=
    List.dropLast_append_getLast hne
  have hlast : cs.getLast hne = sep := by
    have := List.getLast?_eq_getLast cs hne
    rw [this] at h
    exact Option.some.inj h
  rw [← hdecomp, hlast]
  rw [show (cs.dropLast ++ [sep]) = cs.dropLast ++ sep :: [] from rfl]
  rw [splitCh_append]
  simp [splitCh]

theorem nil_mem_splitCh_of_nil (sep : Char) : [] ∈ splitCh sep [] := by
  simp [splitCh]

theorem empty_mem_splitParts {s : String} {cs : List Char}
    (h : cs ∈ splitCh '/' s.data) (hnil : cs = []) : "" ∈ splitParts s := by
  subst hnil
  exact List.mem_map.mpr ⟨[], h, rfl⟩

theorem CleanPath.data_ne_nil {s : String} (h : CleanPath s) : s.data ≠ [] := by
  intro he
  have : "" ∈ splitParts s := by
    unfold splitParts
    rw [he]
    exact List.mem_map.mpr ⟨[], nil_mem_splitCh_of_nil '/', rfl⟩
  exact (h "" this).1 rfl

theorem CleanPath.head_ne_slash {s : String} (h : CleanPath s) :
    s.data.head? ≠ some '/' := by
  intro he
  exact (h "" (empty_mem_splitParts (nil_mem_splitCh_of_head '/' s.data he) rfl)).1 rfl

theorem CleanPath.last_ne_slash {s : String} (h : CleanPath s) :
    s.data.getLast? ≠ some '/' := by
  intro he
  exact (h "" (empty_mem_splitParts (nil_mem_splitCh_of_last '/' s.data he) rfl)).1 rfl

theorem posixJoin_eq (a b : String) (ha : a.data ≠ [])
    (ha2 : a.data.getLast? ≠ some '/') (hb : b.data.head? ≠ some '/') :
    posixJoin a b = a ++ "/" ++ b := by
  unfold posixJoin
  rw [if_neg hb, if_neg (by push_neg; exact ⟨ha, ha2⟩)]

theorem splitParts_append_slash (a b : String) :
    splitParts (a ++ "/" ++ b) = splitParts a ++ splitParts b := by
  unfold splitParts
  have hdata : (a ++ "/" ++ b).data = a.data ++ '/' :: b.data := by
    simp [String.data_append]
  rw [hdata, splitCh_append, List.map_append]

theorem CleanPath.append {a b : String} (ha : CleanPath a) (hb : CleanPath b) :
    CleanPath (a ++ "/" ++ b) := by
  intro p hp
  rw [splitParts_append_slash] at hp
  rcases List.mem_append.mp hp with h | h
  · exact ha p h
  · exact hb p h

theorem cleanNameB_no_slash {s : String} (h : cleanNameB s = true) :
    '/' ∉ s.data := by
  simp only [cleanNameB, Bool.and_eq_true, Bool.not_eq_true'] at h
  intro hm
  have hc : s.data.contains '/' = true := List.elem_eq_true_of_mem hm
  rw [h.2] at hc
  exact Bool.noConfusion hc

theorem cleanNameB_splitParts {s : String} (h : cleanNameB s = true) :
    splitParts s = [s] := by
  unfold splitParts
  rw [splitCh_no_sep '/' s.data (cleanNameB_no_slash h)]
  rfl

theorem cleanNameB_cleanPart {s : String} (h : cleanNameB s = true) :
    cleanPart s := by
  simp only [cleanNameB, Bool.and_eq_true, decide_eq_true_eq] at h
  exact ⟨h.1.1.1, h.1.1.2, h.1.2⟩

theorem cleanNameB_cleanPath {s : String} (h : cleanNameB s = true) :
    CleanPath s := by
  intro p hp
  rw [cleanNameB_splitParts h] at hp
  rcases List.mem_singleton.mp hp with rfl
  exact cleanNameB_cleanPart h

theorem normStep_clean (acc : List String) (p : String) (h : cleanPart p) :
    normStep acc p = acc ++ [p] := by
  obtain ⟨h1, h2, h3⟩ := h
  simp [normStep, h1, h2, h3]

theorem normStep_dot (acc : List String) : normStep acc "." = acc := by
  simp [normStep]

theorem foldl_normStep_clean (ps : List String)
    (h : ∀ p ∈ ps, cleanPart p) :
    ∀ acc : List String, ps.foldl normStep acc = acc ++ ps := by
  induction ps with
  | nil => intro acc; simp
  | cons p ps ih =>
    intro acc
    have hp := h p (List.mem_cons_self p ps)
    have hs : ∀ q ∈ ps, cleanPart q := fun q hq => h q (List.mem_cons_of_mem _ hq)
    simp only [List.foldl_cons, normStep_clean acc p hp, ih hs]
    simp

theorem splitParts_ne_nil (s : String) : splitParts s ≠ [] := by
  unfold splitParts
  intro he
  exact splitCh_ne_nil '/' s.data (List.map_eq_nil_iff.mp he)

theorem joinParts_splitParts (s : String) : joinParts (splitParts s) = s := by
  unfold joinParts splitParts
  rw [List.map_map]
  have : (String.data ∘ fun cs => (⟨cs⟩ : String)) = id := rfl
  rw [this, List.map_id, joinSlash_splitCh]

theorem posixNormpath_clean {s : String} (h : CleanPath s) :
    posixNormpath s = s := by
  unfold posixNormpath normparts
  rw [foldl_normStep_clean _ h []]
  simp only [List.nil_append]
  rw [if_neg (splitParts_ne_nil s), joinParts_splitParts]

theorem map_data_splitParts (s : String) :
    (splitParts s).map String.data = splitCh '/' s.data := by
  unfold splitParts
  rw [List.map_map]
  have : (String.data ∘ fun cs => (⟨cs⟩ : String)) = id := rfl
  rw [this, List.map_id]

theorem joinParts_two (a b : String) :
    joinParts (splitParts a ++ splitParts b) = a ++ "/" ++ b := by
  unfold joinParts
  rw [List.map_append, map_data_splitParts, map_data_splitParts,
    joinSlash_append _ _ (splitCh_ne_nil '/' a.data) (splitCh_ne_nil '/' b.data),
    joinSlash_splitCh, joinSlash_splitCh]
  have hdata : a.data ++ '/' :: b.data = (a ++ "/" ++ b).data := by
    simp [String.data_append]
  rw [hdata]

theorem recPath_dot (d f : String) (hd : CleanPath d) (hf : CleanPath f) :
    recPath d (".", f) = d ++ "/" ++ f := by
  unfold recPath
  rw [posixJoin_eq d "." hd.data_ne_nil hd.last_ne_slash (by decide)]
  have h2 : posixJoin (d ++ "/" ++ ".") f = d ++ "/" ++ "." ++ "/" ++ f := by
    apply posixJoin_eq
    · simp [String.data_append]
    · simp [String.data_append]
    · exact hf.head_ne_slash
  rw [h2]
  unfold posixNormpath normparts
  have hsp : splitParts (d ++ "/" ++ "." ++ "/" ++ f) =
      (splitParts d ++ ["."]) ++ splitParts f := by
    rw [splitParts_append_slash, splitParts_append_slash]
    rfl
  rw [hsp, List.foldl_append, List.foldl_append,
    foldl_normStep_clean _ hd [], List.nil_append]
  simp only [List.foldl_cons, List.foldl_nil, normStep_dot]
  rw [foldl_normStep_clean _ hf (splitParts d)]
  rw [if_neg (by simp [splitParts_ne_nil d])]
  exact joinParts_two d f

theorem recPath_rel (d rel f : String) (hd : CleanPath d)
    (hrel : CleanPath rel) (hf : CleanPath f) :
    recPath d (rel, f) = d ++ "/" ++ rel ++ "/" ++ f := by
  unfold recPath
  rw [posixJoin_eq d rel hd.data_ne_nil hd.last_ne_slash hrel.head_ne_slash]
  have hdr : CleanPath (d ++ "/" ++ rel) := hd.append hrel
  rw [posixJoin_eq _ f hdr.data_ne_nil hdr.last_ne_slash hf.head_ne_slash]
  exact posixNormpath_clean (hdr.append hf)

/-! ### Lemmas: builder-state bookkeeping -/

theorem foldl_record_false (g : String × String → String) :
    ∀ (L : List (String × String)) (st : PBState),
      ((L.foldl (fun st pr => record_file st (g pr) false) st).files
          = st.files ++ L.map g) ∧
      ((L.foldl (fun st pr => record_file st (g pr) false) st).has_prefix_files
          = st.has_prefix_files) ∧
      ((L.foldl (fun st pr => record_file st (g pr) false) st).py_record_extra
          = st.py_record_extra)
  | [], st => by simp
  | pr :: L, st => by
    have ih := foldl_record_false g L (record_file st (g pr) false)
    simp only [List.foldl_cons, List.map_cons] at ih ⊢
    refine ⟨?_, ?_, ?_⟩
    · rw [ih.1]; simp [record_file]
    · rw [ih.2.1]; simp [record_file]
    · rw [ih.2.2]; simp [record_file]

theorem record_file_or_dir_spec (st : PBState) (arc : String) (src : FsEntry) :
    (record_file_or_dir st arc src).files = st.files ++ recordedPaths arc src ∧
    (record_file_or_dir st arc src).has_prefix_files = st.has_prefix_files ∧
    (record_file_or_dir st arc src).py_record_extra = st.py_record_extra := by
  cases src with
  | file n c => simp [record_file_or_dir, record_file, recordedPaths]
  | dir n cs => exact foldl_record_false (recPath arc) (osWalkFiles cs) st

theorem tarRegularFiles_append (xs ys : List TarEntry) :
    tarRegularFiles (xs ++ ys) = tarRegularFiles xs ++ tarRegularFiles ys := by
  simp [tarRegularFiles]

theorem tarDirNames_append (xs ys : List TarEntry) :
    tarDirNames (xs ++ ys) = tarDirNames xs ++ tarDirNames ys := by
  simp [tarDirNames]

/-! ### Lemmas: the walk/tar correspondence -/

theorem ne_dot_of_append (rel n : String) : rel ++ "/" ++ n ≠ "." := by
  intro he
  have hd := congrArg String.data he
  simp only [String.data_append,
    show ("/" : String).data = ['/'] from rfl,
    show ("." : String).data = ['.'] from rfl] at hd
  cases hds : rel.data with
  | nil => rw [hds] at hd; simp at hd
  | cons c cs => rw [hds] at hd; simp at hd

theorem not_cleanPath_dot : ¬ CleanPath "." := by
  intro h
  exact (h "." (by rw [show splitParts "." = ["."] from rfl]; simp)).2.1 rfl

theorem dirOf_relJoin (d rel n : String) (hn : cleanNameB n = true)
    (hrel : rel = "." ∨ CleanPath rel) :
    dirOf d (relJoin rel n) = dirOf d rel ++ "/" ++ n := by
  rcases hrel with rfl | hcl
  · have hnd : n ≠ "." := (cleanNameB_cleanPart hn).2.1
    simp [relJoin, dirOf, hnd]
  · have hr : rel ≠ "." := fun he => not_cleanPath_dot (he ▸ hcl)
    have hne := ne_dot_of_append rel n
    rw [relJoin, if_neg hr, dirOf, if_neg hne, dirOf, if_neg hr]
    simp [String.append_assoc]

theorem CleanPath_dirOf {d rel : String} (hd : CleanPath d)
    (hrel : rel = "." ∨ CleanPath rel) : CleanPath (dirOf d rel) := by
  rcases hrel with rfl | h
  · simpa [dirOf] using hd
  · have hr : rel ≠ "." := fun he => not_cleanPath_dot (he ▸ h)
    rw [dirOf, if_neg hr]
    exact hd.append h

theorem recPath_eq_dirOf (d rel n : String) (hd : CleanPath d)
    (hrel : rel = "." ∨ CleanPath rel) (hn : cleanNameB n = true) :
    recPath d (rel, n) = dirOf d rel ++ "/" ++ n := by
  rcases hrel with rfl | h
  · rw [dirOf, if_pos rfl]
    exact recPath_dot d n hd (cleanNameB_cleanPath hn)
  · have hr : rel ≠ "." := fun he => not_cleanPath_dot (he ▸ h)
    rw [dirOf, if_neg hr]
    exact recPath_rel d rel n hd h (cleanNameB_cleanPath hn)

theorem cleanListB_cons {e : FsEntry} {es : List FsEntry} :
    cleanListB (e :: es) = true ↔ cleanTreeB e = true ∧ cleanListB es = true := by
  simp [cleanListB, Bool.and_eq_true]

theorem cleanTreeB_dir {n : String} {cs : List FsEntry} :
    cleanTreeB (.dir n cs) = true ↔
      cleanNameB n = true ∧ cleanListB cs = true := by
  simp [cleanTreeB, Bool.and_eq_true]

theorem cleanTreeB_file {n c : String} :
    cleanTreeB (.file n c) = true ↔ cleanNameB n = true := by
  simp [cleanTreeB]

theorem filesHere_cons_file (rel n c : String) (es : List FsEntry) :
    filesHere rel (.file n c :: es) = (rel, n) :: filesHere rel es := by
  simp [filesHere]

theorem filesHere_cons_dir (rel n : String) (cs es : List FsEntry) :
    filesHere rel (.dir n cs :: es) = filesHere rel es := by
  simp [filesHere]

theorem relJoin_ok {rel n : String} (hrel : rel = "." ∨ CleanPath rel)
    (hn : cleanNameB n = true) :
    relJoin rel n = "." ∨ CleanPath (relJoin rel n) := by
  rcases hrel with rfl | h
  · right
    simpa [relJoin] using cleanNameB_cleanPath hn
  · have hr : rel ≠ "." := fun he => not_cleanPath_dot (he ▸ h)
    right
    rw [relJoin, if_neg hr]
    exact h.append (cleanNameB_cleanPath hn)

theorem walk_tar_perm_aux (d : String) (hd : CleanPath d) :
    ∀ (cs : List FsEntry) (rel : String), (rel = "." ∨ CleanPath rel) →
      cleanListB cs = true →
      ((filesHere rel cs ++ walkDirs rel cs).map (recPath d)).Perm
        (tarRegularFiles (tfAddChildren (fun _ => true) cs (dirOf d rel)))
  | [], rel, _, _ => by
    simp [filesHere, walkDirs, tfAddChildren, tarRegularFiles]
  | .file n c :: es, rel, hrel, hcl => by
    obtain ⟨he, hes⟩ := cleanListB_cons.mp hcl
    have hn := cleanTreeB_file.mp he
    have ih := walk_tar_perm_aux d hd es rel hrel hes
    rw [filesHere_cons_file]
    simp only [walkDirs, walkEntry, List.nil_append]
    rw [List.cons_append, List.map_cons]
    rw [show tfAddChildren (fun _ => true) (.file n c :: es) (dirOf d rel)
        = ⟨dirOf d rel ++ "/" ++ n, false, c⟩ ::
          tfAddChildren (fun _ => true) es (dirOf d rel) by
      simp [tfAddChildren, tfAdd, FsEntry.name]]
    rw [show tarRegularFiles (⟨dirOf d rel ++ "/" ++ n, false, c⟩ ::
          tfAddChildren (fun _ => true) es (dirOf d rel))
        = (dirOf d rel ++ "/" ++ n) ::
          tarRegularFiles (tfAddChildren (fun _ => true) es (dirOf d rel)) by
      simp [tarRegularFiles]]
    rw [recPath_eq_dirOf d rel n hd hrel hn]
    exact ih.cons _
  | .dir n cs :: es, rel, hrel, hcl => by
    obtain ⟨he, hes⟩ := cleanListB_cons.mp hcl
    obtain ⟨hn, hcs⟩ := cleanTreeB_dir.mp he
    have hrel' := relJoin_ok hrel hn
    have ih1 := walk_tar_perm_aux d hd cs (relJoin rel n) hrel' hcs
    have ih2 := walk_tar_perm_aux d hd es rel hrel hes
    rw [dirOf_relJoin d rel n hn hrel] at ih1
    rw [filesHere_cons_dir]
    simp only [walkDirs, walkEntry]
    rw [show tfAddChildren (fun _ => true) (.dir n cs :: es) (dirOf d rel)
        = (⟨dirOf d rel ++ "/" ++ n, true, ""⟩ ::
            tfAddChildren (fun _ => true) cs (dirOf d rel ++ "/" ++ n)) ++
          tfAddChildren (fun _ => true) es (dirOf d rel) by
      simp [tfAddChildren, tfAdd, FsEntry.name]]
    rw [show tarRegularFiles ((⟨dirOf d rel ++ "/" ++ n, true, ""⟩ ::
            tfAddChildren (fun _ => true) cs (dirOf d rel ++ "/" ++ n)) ++
          tfAddChildren (fun _ => true) es (dirOf d rel))
        = tarRegularFiles
            (tfAddChildren (fun _ => true) cs (dirOf d rel ++ "/" ++ n)) ++
          tarRegularFiles (tfAddChildren (fun _ => true) es (dirOf d rel)) by
      simp [tarRegularFiles]]
    rw [List.map_append, List.map_append]
    rw [show (filesHere rel es).map (recPath d) ++
          (((filesHere (relJoin rel n) cs ++ walkDirs (relJoin rel n) cs).map
              (recPath d)) ++ (walkDirs rel es).map (recPath d))
        = ((filesHere rel es).map (recPath d) ++
            ((filesHere (relJoin rel n) cs ++ walkDirs (relJoin rel n) cs).map
              (recPath d))) ++ (walkDirs rel es).map (recPath d) from
      (List.append_assoc _ _ _).symm]
    refine (List.perm_append_comm.append_right _).trans ?_
    rw [List.append_assoc]
    refine ih1.append ?_
    rw [← List.map_append]
    exact ih2

theorem walk_tar_perm (cs : List FsEntry) (d : String) (hd : CleanPath d)
    (hcl : cleanListB cs = true) :
    ((osWalkFiles cs).map (recPath d)).Perm
      (tarRegularFiles (tfAddChildren (fun _ => true) cs d)) := by
  have h := walk_tar_perm_aux d hd cs "." (Or.inl rfl) hcl
  simpa [osWalkFiles, dirOf] using h

theorem splitParts_no_slash {s : String} (h : '/' ∉ s.data) :
    splitParts s = [s] := by
  unfold splitParts
  rw [splitCh_no_sep '/' s.data h]
  rfl

theorem cleanPart_of_head {s : String} {c : Char} {t : List Char}
    (h : s.data = c :: t) (hc : c ≠ '.') : cleanPart s := by
  refine ⟨?_, ?_, ?_⟩
  · intro he; rw [he] at h; exact List.noConfusion h
  · intro he
    rw [he, show ("." : String).data = ['.'] from rfl] at h
    exact hc (List.head_eq_of_cons_eq h.symm)
  · intro he
    rw [he, show (".." : String).data = ['.', '.'] from rfl] at h
    exact hc (List.head_eq_of_cons_eq h.symm)

theorem cleanPath_site_dst (pb : PackageBuilder) (nm : String)
    (hv : '/' ∉ pb.python_version.data) (hnm : cleanNameB nm = true) :
    CleanPath (site_packages_path pb ++ nm) := by
  have hnm0 : '/' ∉ nm.data := cleanNameB_no_slash hnm
  by_cases hplat : pb.platform = Platform.win
  · have hdata : (site_packages_path pb ++ nm).data =
        "Lib".data ++ '/' :: ("site-packages".data ++ '/' :: nm.data) := by
      rw [site_packages_path, if_pos hplat]
      rfl
    intro p hp
    unfold splitParts at hp
    rw [hdata, splitCh_append, splitCh_append,
      splitCh_no_sep '/' "Lib".data (by decide),
      splitCh_no_sep '/' "site-packages".data (by decide),
      splitCh_no_sep '/' nm.data hnm0] at hp
    simp only [List.map_append, List.map_cons, List.map_nil,
      List.append_assoc, List.cons_append, List.nil_append, List.mem_cons,
      List.not_mem_nil, or_false] at hp
    rcases hp with rfl | rfl | rfl
    · exact ⟨by decide, by decide, by decide⟩
    · exact ⟨by decide, by decide, by decide⟩
    · exact cleanNameB_cleanPart hnm
  · have hdata : (site_packages_path pb ++ nm).data =
        "lib".data ++ '/' :: (("python" ++ pb.python_version).data ++
          '/' :: ("site-packages".data ++ '/' :: nm.data)) := by
      rw [site_packages_path, if_neg hplat]
      have e1 : ("lib/python" ++ pb.python_version ++ "/site-packages/"
          ++ nm).data =
          'l' :: 'i' :: 'b' :: '/' :: 'p' :: 'y' :: 't' :: 'h' :: 'o' :: 'n' ::
            (pb.python_version.data ++
              '/' :: 's' :: 'i' :: 't' :: 'e' :: '-' :: 'p' :: 'a' :: 'c' ::
                'k' :: 'a' :: 'g' :: 'e' :: 's' :: '/' :: nm.data) := by
        simp only [String.data_append,
          show "lib/python".data =
            ['l', 'i', 'b', '/', 'p', 'y', 't', 'h', 'o', 'n'] from rfl,
          show "/site-packages/".data =
            ['/', 's', 'i', 't', 'e', '-', 'p', 'a', 'c', 'k', 'a', 'g', 'e',
              's', '/'] from rfl]
        simp
      rw [e1]
      have e2 : ("python" ++ pb.python_version).data =
          'p' :: 'y' :: 't' :: 'h' :: 'o' :: 'n' :: pb.python_version.data := by
        simp only [String.data_append,
          show "python".data = ['p', 'y', 't', 'h', 'o', 'n'] from rfl]
        simp
      rw [e2]
      simp
    intro p hp
    unfold splitParts at hp
    have hpv : '/' ∉ ("python" ++ pb.python_version).data := by
      rw [String.data_append]
      intro hmem
      rcases List.mem_append.mp hmem with h1 | h1
      · revert h1; decide
      · exact hv h1
    rw [hdata, splitCh_append, splitCh_append, splitCh_append,
      splitCh_no_sep '/' "lib".data (by decide),
      splitCh_no_sep '/' ("python" ++ pb.python_version).data hpv,
      splitCh_no_sep '/' "site-packages".data (by decide),
      splitCh_no_sep '/' nm.data hnm0] at hp
    simp only [List.map_append, List.map_cons, List.map_nil,
      List.append_assoc, List.cons_append, List.nil_append, List.mem_cons,
      List.not_mem_nil, or_false] at hp
    rcases hp with rfl | rfl | rfl | rfl
    · exact ⟨by decide, by decide, by decide⟩
    · exact cleanPart_of_head
        (show (⟨("python" ++ pb.python_version).data⟩ : String).data =
          'p' :: ('y' :: 't' :: 'h' :: 'o' :: 'n' :: pb.python_version.data)
          from by
            simp only [String.data_append,
              show "python".data = ['p', 'y', 't', 'h', 'o', 'n'] from rfl]
            simp)
        (by decide)
    · exact ⟨by decide, by decide, by decide⟩
    · exact cleanNameB_cleanPart hnm

theorem recorded_tar_perm_arc (f : FsEntry) (arc : String)
    (harc : CleanPath arc) (hcl : cleanTreeB f = true) :
    (recordedPaths arc f).Perm
      (tarRegularFiles (tfAdd (fun _ => true) f arc)) := by
  cases f with
  | file n c => simp [recordedPaths, tfAdd, tarRegularFiles]
  | dir n cs =>
    obtain ⟨_, hcs⟩ := cleanTreeB_dir.mp hcl
    have h := walk_tar_perm cs arc harc hcs
    have e : tarRegularFiles (tfAdd (fun _ => true) (.dir n cs) arc) =
        tarRegularFiles (tfAddChildren (fun _ => true) cs arc) := by
      simp [tfAdd, tarRegularFiles]
    rw [recordedPaths, e]
    exact h

theorem tfAdd_filter_children (keep : String → Bool) :
    ∀ (cs : List FsEntry) (base : String),
      (∀ dn ∈ tarDirNames (tfAddChildren (fun _ => true) cs base),
        keep dn = true) →
      tarRegularFiles (tfAddChildren keep cs base) =
        (tarRegularFiles (tfAddChildren (fun _ => true) cs base)).filter keep
  | [], base, _ => by simp [tfAddChildren, tarRegularFiles]
  | .file n c :: es, base, hdn => by
    have hdn' : ∀ dn ∈ tarDirNames
        (tfAddChildren (fun _ => true) es base), keep dn = true := by
      intro dn hmem
      refine hdn dn ?_
      rw [show tfAddChildren (fun _ => true) (.file n c :: es) base
          = ⟨base ++ "/" ++ n, false, c⟩ ::
            tfAddChildren (fun _ => true) es base by
        simp [tfAddChildren, tfAdd, FsEntry.name]]
      simp [tarDirNames] at hmem ⊢
      exact hmem
    have ih := tfAdd_filter_children keep es base hdn'
    rw [show tfAddChildren keep (.file n c :: es) base
        = (if keep (base ++ "/" ++ n) then [⟨base ++ "/" ++ n, false, c⟩]
            else []) ++ tfAddChildren keep es base by
      simp [tfAddChildren, tfAdd, FsEntry.name]]
    rw [show tfAddChildren (fun _ => true) (.file n c :: es) base
        = ⟨base ++ "/" ++ n, false, c⟩ ::
          tfAddChildren (fun _ => true) es base by
      simp [tfAddChildren, tfAdd, FsEntry.name]]
    rw [tarRegularFiles_append, ih]
    by_cases hk : keep (base ++ "/" ++ n)
    · simp [hk, tarRegularFiles, List.filter_cons]
    · simp [hk, tarRegularFiles, List.filter_cons]
  | .dir n cs :: es, base, hdn => by
    have hkdir : keep (base ++ "/" ++ n) = true := by
      refine hdn (base ++ "/" ++ n) ?_
      rw [show tfAddChildren (fun _ => true) (.dir n cs :: es) base
          = (⟨base ++ "/" ++ n, true, ""⟩ ::
              tfAddChildren (fun _ => true) cs (base ++ "/" ++ n)) ++
            tfAddChildren (fun _ => true) es base by
        simp [tfAddChildren, tfAdd, FsEntry.name]]
      simp [tarDirNames]
    have hdn1 : ∀ dn ∈ tarDirNames
        (tfAddChildren (fun _ => true) cs (base ++ "/" ++ n)),
        keep dn = true := by
      intro dn hmem
      refine hdn dn ?_
      rw [show tfAddChildren (fun _ => true) (.dir n cs :: es) base
          = (⟨base ++ "/" ++ n, true, ""⟩ ::
              tfAddChildren (fun _ => true) cs (base ++ "/" ++ n)) ++
            tfAddChildren (fun _ => true) es base by
        simp [tfAddChildren, tfAdd, FsEntry.name]]
      simp [tarDirNames] at hmem ⊢
      right; left; exact hmem
    have hdn2 : ∀ dn ∈ tarDirNames
        (tfAddChildren (fun _ => true) es base), keep dn = true := by
      intro dn hmem
      refine hdn dn ?_
      rw [show tfAddChildren (fun _ => true) (.dir n cs :: es) base
          = (⟨base ++ "/" ++ n, true, ""⟩ ::
              tfAddChildren (fun _ => true) cs (base ++ "/" ++ n)) ++
            tfAddChildren (fun _ => true) es base by
        simp [tfAddChildren, tfAdd, FsEntry.name]]
      simp [tarDirNames] at hmem ⊢
      right; right; exact hmem
    have ih1 := tfAdd_filter_children keep cs (base ++ "/" ++ n) hdn1
    have ih2 := tfAdd_filter_children keep es base hdn2
    rw [show tfAddChildren keep (.dir n cs :: es) base
        = (⟨base ++ "/" ++ n, true, ""⟩ ::
            tfAddChildren keep cs (base ++ "/" ++ n)) ++
          tfAddChildren keep es base by
      simp [tfAddChildren, tfAdd, FsEntry.name, hkdir]]
    rw [show tfAddChildren (fun _ => true) (.dir n cs :: es) base
        = (⟨base ++ "/" ++ n, true, ""⟩ ::
            tfAddChildren (fun _ => true) cs (base ++ "/" ++ n)) ++
          tfAddChildren (fun _ => true) es base by
      simp [tfAddChildren, tfAdd, FsEntry.name]]
    rw [tarRegularFiles_append, tarRegularFiles_append, List.filter_append]
    rw [show tarRegularFiles (⟨base ++ "/" ++ n, true, ""⟩ ::
          tfAddChildren keep cs (base ++ "/" ++ n))
        = tarRegularFiles (tfAddChildren keep cs (base ++ "/" ++ n)) by
      simp [tarRegularFiles]]
    rw [show tarRegularFiles (⟨base ++ "/" ++ n, true, ""⟩ ::
          tfAddChildren (fun _ => true) cs (base ++ "/" ++ n))
        = tarRegularFiles (tfAddChildren (fun _ => true) cs (base ++ "/" ++ n)) by
      simp [tarRegularFiles]]
    rw [ih1, ih2]

/-! ### Lemmas: the module-copy stage -/

theorem cleanTreeB_name {f : FsEntry} (h : cleanTreeB f = true) :
    cleanNameB f.name = true := by
  cases f with
  | file n c => exact cleanTreeB_file.mp h
  | dir n cs => exact (cleanTreeB_dir.mp h).1

theorem perm_shuffle {α : Type} (A1 E1 A2 E2 : List α) :
    ((A1 ++ E1) ++ (A2 ++ E2)).Perm ((A1 ++ A2) ++ (E1 ++ E2)) := by
  simp only [List.append_assoc]
  refine List.Perm.append_left A1 ?_
  rw [show E1 ++ (A2 ++ E2) = (E1 ++ A2) ++ E2 from (List.append_assoc _ _ _).symm]
  refine (List.perm_append_comm.append_right E2).trans ?_
  rw [List.append_assoc]

theorem addDataFiles_spec :
    ∀ (fs : List FsEntry) (acc : List TarEntry × PBState),
      cleanListB fs = true →
      ∃ T F, (addDataFiles acc fs).1 = acc.1 ++ T ∧
        (addDataFiles acc fs).2.files = acc.2.files ++ F ∧
        (addDataFiles acc fs).2.has_prefix_files = acc.2.has_prefix_files ∧
        (addDataFiles acc fs).2.py_record_extra = acc.2.py_record_extra ∧
        F.Perm (tarRegularFiles T)
  | [], acc, _ => ⟨[], [], by simp [addDataFiles], by simp [addDataFiles],
      by simp [addDataFiles], by simp [addDataFiles], by simp [tarRegularFiles]⟩
  | f :: fs, acc, hcl => by
    obtain ⟨hf, hfs⟩ := cleanListB_cons.mp hcl
    have hstep : addDataFiles acc (f :: fs) =
        addDataFiles (acc.1 ++ tfAdd (fun _ => true) f f.name,
          record_file_or_dir acc.2 f.name f) fs := by
      simp [addDataFiles]
    obtain ⟨T, F, h1, h2, h3, h4, hperm⟩ :=
      addDataFiles_spec fs (acc.1 ++ tfAdd (fun _ => true) f f.name,
        record_file_or_dir acc.2 f.name f) hfs
    obtain ⟨hr1, hr2, hr3⟩ := record_file_or_dir_spec acc.2 f.name f
    refine ⟨tfAdd (fun _ => true) f f.name ++ T, recordedPaths f.name f ++ F,
      ?_, ?_, ?_, ?_, ?_⟩
    · rw [hstep, h1, List.append_assoc]
    · rw [hstep, h2, hr1, List.append_assoc]
    · rw [hstep, h3, hr2]
    · rw [hstep, h4, hr3]
    · rw [tarRegularFiles_append]
      exact (recorded_tar_perm_arc f f.name
        (cleanNameB_cleanPath (cleanTreeB_name hf)) hf).append hperm

theorem add_data_dir_go :
    ∀ (ds : List FsEntry) (acc : List TarEntry × PBState)
      (out : List TarEntry × PBState), cleanListB ds = true →
      (ds.foldlM
        (fun acc d =>
          if d.name = "data" then
            match d with
            | .file _ _ =>
              (.error (.ioError "NotADirectoryError") :
                Except PyErr (List TarEntry × PBState))
            | .dir _ fs => .ok (addDataFiles acc fs)
          else .error (.notImplemented (d.name ++ " under data dir")))
        acc) = .ok out →
      ∃ T F, out.1 = acc.1 ++ T ∧ out.2.files = acc.2.files ++ F ∧
        out.2.has_prefix_files = acc.2.has_prefix_files ∧
        out.2.py_record_extra = acc.2.py_record_extra ∧
        F.Perm (tarRegularFiles T)
  | [], acc, out, _, hok => by
    simp only [List.foldlM_nil] at hok
    cases hok
    exact ⟨[], [], by simp, by simp, rfl, rfl, by simp [tarRegularFiles]⟩
  | d :: ds, acc, out, hcl, hok => by
    obtain ⟨hd, hds⟩ := cleanListB_cons.mp hcl
    rw [List.foldlM_cons] at hok
    by_cases hname : d.name = "data"
    · cases d with
      | file n c =>
        rw [if_pos hname] at hok
        exact absurd hok (by simp [Bind.bind, Except.bind])
      | dir n fs =>
        rw [if_pos hname] at hok
        obtain ⟨_, hfs⟩ := cleanTreeB_dir.mp hd
        obtain ⟨T1, F1, g1, g2, g3, g4, gperm⟩ := addDataFiles_spec fs acc hfs
        obtain ⟨T2, F2, k1, k2, k3, k4, kperm⟩ :=
          add_data_dir_go ds (addDataFiles acc fs) out hds hok
        refine ⟨T1 ++ T2, F1 ++ F2, ?_, ?_, ?_, ?_, ?_⟩
        · rw [k1, g1, List.append_assoc]
        · rw [k2, g2, List.append_assoc]
        · rw [k3, g3]
        · rw [k4, g4]
        · rw [tarRegularFiles_append]
          exact gperm.append kperm
    · rw [if_neg hname] at hok
      exact absurd hok (by simp [Bind.bind, Except.bind])

theorem add_data_dir_spec (src : FsEntry) (acc out : List TarEntry × PBState)
    (hcl : cleanTreeB src = true) (hok : _add_data_dir acc src = .ok out) :
    ∃ T F, out.1 = acc.1 ++ T ∧ out.2.files = acc.2.files ++ F ∧
      out.2.has_prefix_files = acc.2.has_prefix_files ∧
      out.2.py_record_extra = acc.2.py_record_extra ∧
      F.Perm (tarRegularFiles T) := by
  cases src with
  | file n c => exact absurd hok (by simp [_add_data_dir])
  | dir n ds =>
    obtain ⟨_, hds⟩ := cleanTreeB_dir.mp hcl
    exact add_data_dir_go ds acc out hds hok

theorem self_ne_append_record (s : String) : s ≠ s ++ "/RECORD" := by
  intro he
  have hlen := congrArg (fun x : String => x.data.length) he
  simp only [String.data_append, List.length_append,
    show ("/RECORD" : String).data.length = 7 from rfl] at hlen
  omega

theorem addModule1_spec (pb : PackageBuilder)
    (acc out : List TarEntry × PBState) (src : FsEntry)
    (hver : '/' ∉ pb.python_version.data)
    (hcl : cleanTreeB src = true) (hrt : RecordTidy pb src)
    (hok : addModule1 pb acc src = .ok out) :
    ∃ T F, out.1 = acc.1 ++ T ∧ out.2.files = acc.2.files ++ F ∧
      out.2.has_prefix_files = acc.2.has_prefix_files ∧
      out.2.py_record_extra = acc.2.py_record_extra ∧
      F.Perm (tarRegularFiles T ++ recordExcess pb src) := by
  by_cases hdata : strEndsWith src.name ".data" = true
  · rw [addModule1, if_pos hdata] at hok
    obtain ⟨T, F, h1, h2, h3, h4, hperm⟩ := add_data_dir_spec src acc out hcl hok
    refine ⟨T, F, h1, h2, h3, h4, ?_⟩
    rw [recordExcess, if_pos hdata, List.append_nil]
    exact hperm
  · have hdst : CleanPath (site_packages_path pb ++ src.name) :=
      cleanPath_site_dst pb src.name hver (cleanTreeB_name hcl)
    by_cases hdist : strEndsWith src.name ".dist-info" = true
    · rw [addModule1, if_neg hdata, if_pos hdist] at hok
      have hout := Except.ok.inj hok
      obtain ⟨hfilter, hdirs⟩ := hrt hdist
      subst hout
      obtain ⟨hr1, hr2, hr3⟩ := record_file_or_dir_spec acc.2
        (site_packages_path pb ++ src.name) src
      refine ⟨tfAdd (fun n => !(strEndsWith n "RECORD")) src
          (site_packages_path pb ++ src.name),
        recordedPaths (site_packages_path pb ++ src.name) src,
        rfl, hr1, hr2, hr3, ?_⟩
      rw [recordExcess, if_neg hdata, if_pos hdist]
      have p1 := recorded_tar_perm_arc src (site_packages_path pb ++ src.name)
        hdst hcl
      cases src with
      | file n c =>
        exfalso
        rw [show tarRegularFiles (tfAdd (fun _ => true) (.file n c)
              (site_packages_path pb ++ FsEntry.name (.file n c)))
            = [site_packages_path pb ++ FsEntry.name (.file n c)] by
          simp [tfAdd, tarRegularFiles]] at hfilter
        by_cases hrec : strEndsWith
            (site_packages_path pb ++ FsEntry.name (.file n c)) "RECORD" = true
        · rw [List.filter_cons_of_pos (by simpa using hrec)] at hfilter
          have := List.head_eq_of_cons_eq hfilter
          exact self_ne_append_record _ this
        · rw [List.filter_cons_of_neg (by simpa using hrec)] at hfilter
          exact List.noConfusion (List.filter_nil _ ▸ hfilter)
      | dir n cs =>
        obtain ⟨hn, hcs⟩ := cleanTreeB_dir.mp hcl
        set dst := site_packages_path pb ++ FsEntry.name (.dir n cs) with hdst_def
        have hdstdir : strEndsWith dst "RECORD" = false := by
          refine hdirs dst ?_
          simp [tfAdd, tarDirNames]
        have hkeepdst : (fun m => !(strEndsWith m "RECORD")) dst = true := by
          simp [hdstdir]
        have e1 : tfAdd (fun m => !(strEndsWith m "RECORD")) (.dir n cs) dst
            = ⟨dst, true, ""⟩ ::
              tfAddChildren (fun m => !(strEndsWith m "RECORD")) cs dst := by
          simp [tfAdd, hdstdir]
        have hdirsc : ∀ dn ∈ tarDirNames
            (tfAddChildren (fun _ => true) cs dst),
            (fun m => !(strEndsWith m "RECORD")) dn = true := by
          intro dn hmem
          have : strEndsWith dn "RECORD" = false := by
            refine hdirs dn ?_
            rw [show tfAdd (fun _ => true) (.dir n cs) dst
                = ⟨dst, true, ""⟩ :: tfAddChildren (fun _ => true) cs dst by
              simp [tfAdd]]
            simp [tarDirNames] at hmem ⊢
            right; exact hmem
          simp [this]
        have e2 := tfAdd_filter_children
          (fun m => !(strEndsWith m "RECORD")) cs dst hdirsc
        have e3 : tarRegularFiles (tfAdd (fun _ => true) (.dir n cs) dst)
            = tarRegularFiles (tfAddChildren (fun _ => true) cs dst) := by
          simp [tfAdd, tarRegularFiles]
        have hpart := (List.filter_append_perm
          (fun m => !(strEndsWith m "RECORD"))
          (tarRegularFiles (tfAddChildren (fun _ => true) cs dst))).symm
        have hnotnot : (fun m => !((fun k => !(strEndsWith k "RECORD")) m))
            = fun m => strEndsWith m "RECORD" := by
          funext m
          simp
        rw [hnotnot] at hpart
        rw [e3] at hfilter p1
        rw [hfilter] at hpart
        refine p1.trans (hpart.trans ?_)
        rw [e1]
        rw [show tarRegularFiles (⟨dst, true, ""⟩ ::
              tfAddChildren (fun m => !(strEndsWith m "RECORD")) cs dst)
            = tarRegularFiles
              (tfAddChildren (fun m => !(strEndsWith m "RECORD")) cs dst) by
          simp [tarRegularFiles]]
        rw [e2]
    · rw [addModule1, if_neg hdata, if_neg hdist] at hok
      have hout := Except.ok.inj hok
      subst hout
      obtain ⟨hr1, hr2, hr3⟩ := record_file_or_dir_spec acc.2
        (site_packages_path pb ++ src.name) src
      refine ⟨tfAdd (fun _ => true) src (site_packages_path pb ++ src.name),
        recordedPaths (site_packages_path pb ++ src.name) src,
        rfl, hr1, hr2, hr3, ?_⟩
      rw [recordExcess, if_neg hdata, if_neg hdist, List.append_nil]
      exact recorded_tar_perm_arc src (site_packages_path pb ++ src.name)
        hdst hcl

theorem add_module_go (pb : PackageBuilder)
    (hver : '/' ∉ pb.python_version.data) :
    ∀ (es : List FsEntry) (acc out : List TarEntry × PBState),
      cleanListB es = true →
      (∀ e ∈ es, RecordTidy pb e) →
      es.foldlM (addModule1 pb) acc = .ok out →
      ∃ T F, out.1 = acc.1 ++ T ∧ out.2.files = acc.2.files ++ F ∧
        out.2.has_prefix_files = acc.2.has_prefix_files ∧
        out.2.py_record_extra = acc.2.py_record_extra ∧
        F.Perm (tarRegularFiles T ++ (es.map (recordExcess pb)).flatten)
  | [], acc, out, _, _, hok => by
    simp only [List.foldlM_nil] at hok
    cases hok
    exact ⟨[], [], by simp, by simp, rfl, rfl, by simp [tarRegularFiles]⟩
  | e :: es, acc, out, hcl, hrt, hok => by
    obtain ⟨he, hes⟩ := cleanListB_cons.mp hcl
    rw [List.foldlM_cons] at hok
    cases hstep : addModule1 pb acc e with
    | error err =>
      rw [hstep] at hok
      exact absurd hok (by simp [Bind.bind, Except.bind])
    | ok acc1 =>
      rw [hstep] at hok
      obtain ⟨T1, F1, g1, g2, g3, g4, gperm⟩ := addModule1_spec pb acc acc1 e
        hver he (hrt e (List.mem_cons_self e es)) hstep
      obtain ⟨T2, F2, k1, k2, k3, k4, kperm⟩ := add_module_go pb hver es acc1
        out hes (fun x hx => hrt x (List.mem_cons_of_mem e hx)) hok
      refine ⟨T1 ++ T2, F1 ++ F2, ?_, ?_, ?_, ?_, ?_⟩
      · rw [k1, g1, List.append_assoc]
      · rw [k2, g2, List.append_assoc]
      · rw [k3, g3]
      · rw [k4, g4]
      · rw [List.map_cons, List.flatten_cons, tarRegularFiles_append]
        exact (gperm.append kperm).trans
          (perm_shuffle (tarRegularFiles T1) (recordExcess pb e)
            (tarRegularFiles T2) ((es.map (recordExcess pb)).flatten))

theorem recordExcess_nil_of_no_distinfo (pb : PackageBuilder) :
    ∀ (es : List FsEntry),
      es.filter (fun e => strEndsWith e.name ".dist-info") = [] →
      (es.map (recordExcess pb)).flatten = []
  | [], _ => rfl
  | e :: es, hf => by
    rw [List.filter_cons] at hf
    by_cases hd : strEndsWith e.name ".dist-info" = true
    · rw [if_pos (by simpa using hd)] at hf
      exact List.noConfusion hf
    · rw [if_neg (by simpa using hd)] at hf
      have hrec := recordExcess_nil_of_no_distinfo pb es hf
      rw [List.map_cons, List.flatten_cons, hrec, List.append_nil]
      rw [recordExcess]
      by_cases hdat : strEndsWith e.name ".data" = true
      · rw [if_pos hdat]
      · rw [if_neg hdat, if_neg hd]

theorem recordExcess_flatten (pb : PackageBuilder) :
    ∀ (es : List FsEntry) (di : FsEntry),
      es.filter (fun e => strEndsWith e.name ".dist-info") = [di] →
      strEndsWith di.name ".data" = false →
      (es.map (recordExcess pb)).flatten =
        [site_packages_path pb ++ di.name ++ "/RECORD"]
  | [], di, hf, _ => List.noConfusion hf
  | e :: es, di, hf, hdd => by
    rw [List.filter_cons] at hf
    by_cases hd : strEndsWith e.name ".dist-info" = true
    · rw [if_pos (by simpa using hd)] at hf
      have hedi : e = di := List.head_eq_of_cons_eq hf
      have htail : es.filter (fun e => strEndsWith e.name ".dist-info") = [] :=
        List.tail_eq_of_cons_eq hf
      subst hedi
      rw [List.map_cons, List.flatten_cons,
        recordExcess_nil_of_no_distinfo pb es htail, List.append_nil,
        recordExcess, if_neg (by simp [hdd]), if_pos hd]
    · rw [if_neg (by simpa using hd)] at hf
      have hrec := recordExcess_flatten pb es di hf hdd
      rw [List.map_cons, List.flatten_cons, hrec]
      rw [recordExcess]
      by_cases hdat : strEndsWith e.name ".data" = true
      · rw [if_pos hdat, List.nil_append]
      · rw [if_neg hdat, if_neg hd, List.nil_append]

theorem find_dist_info_of_filter :
    ∀ (xs : List FsEntry) (di : FsEntry),
      xs.filter (fun e => strEndsWith e.name ".dist-info") = [di] →
      find_dist_info xs = .ok di
  | [], di, hf => List.noConfusion hf
  | x :: xs, di, hf => by
    rw [List.filter_cons] at hf
    by_cases hd : strEndsWith x.name ".dist-info" = true
    · rw [if_pos (by simpa using hd)] at hf
      rw [find_dist_info, if_pos hd]
      exact congrArg Except.ok (List.head_eq_of_cons_eq hf)
    · rw [if_neg (by simpa using hd)] at hf
      rw [find_dist_info, if_neg hd]
      exact find_dist_info_of_filter xs di hf

/-! ### Lemmas: the script stage and manifest entries -/

theorem _write_script_unix_spec (pb : PackageBuilder) (st : PBState)
    (name contents : String) :
    (_write_script_unix pb st name contents).2.files =
      st.files ++ tarRegularFiles (_write_script_unix pb st name contents).1 := by
  simp [_write_script_unix, record_file, _py_record_file, tarRegularFiles]

theorem _write_script_windows_spec (pb : PackageBuilder) (st : PBState)
    (name contents : String) :
    (_write_script_windows pb st name contents).2.files =
      st.files ++
        tarRegularFiles (_write_script_windows pb st name contents).1 := by
  simp [_write_script_windows, _write_script_unix, record_file,
    _py_record_file, tarRegularFiles]

theorem createScript1_spec (pb : PackageBuilder)
    (acc out : List TarEntry × PBState) (nameEp : String × String)
    (hok : createScript1 pb acc nameEp = .ok out) :
    ∃ T, out.1 = acc.1 ++ T ∧
      out.2.files = acc.2.files ++ tarRegularFiles T := by
  obtain ⟨name, ep⟩ := nameEp
  rw [createScript1] at hok
  by_cases hc : countColon ep ≠ 1
  · rw [if_pos hc] at hok
    exact absurd hok (by simp)
  · rw [if_neg hc] at hok
    by_cases hplat : pb.platform = Platform.win
    · rw [if_pos hplat] at hok
      have hout := (Except.ok.inj hok).symm
      refine ⟨(_write_script_windows pb acc.2 name
        (script_template (PREFIX_PLACEHOLDER ++ "/bin/python")
          ((splitStr ':' ep).headD "") ((splitStr ':' ep).getD 1 ""))).1,
        ?_, ?_⟩
      · rw [hout]
      · rw [hout]
        exact _write_script_windows_spec pb acc.2 name _
    · rw [if_neg hplat] at hok
      have hout := (Except.ok.inj hok).symm
      refine ⟨(_write_script_unix pb acc.2 name
        (script_template (PREFIX_PLACEHOLDER ++ "/bin/python")
          ((splitStr ':' ep).headD "") ((splitStr ':' ep).getD 1 ""))).1,
        ?_, ?_⟩
      · rw [hout]
      · rw [hout]
        exact _write_script_unix_spec pb acc.2 name _

theorem create_scripts_go (pb : PackageBuilder) :
    ∀ (eps : List (String × String)) (acc out : List TarEntry × PBState),
      eps.foldlM (createScript1 pb) acc = .ok out →
      ∃ T, out.1 = acc.1 ++ T ∧
        out.2.files = acc.2.files ++ tarRegularFiles T
  | [], acc, out, hok => by
    simp only [List.foldlM_nil] at hok
    cases hok
    exact ⟨[], by simp, by simp [tarRegularFiles]⟩
  | pr :: eps, acc, out, hok => by
    rw [List.foldlM_cons] at hok
    cases hstep : createScript1 pb acc pr with
    | error err =>
      rw [hstep] at hok
      exact absurd hok (by simp [Bind.bind, Except.bind])
    | ok acc1 =>
      rw [hstep] at hok
      obtain ⟨T1, g1, g2⟩ := createScript1_spec pb acc acc1 pr hstep
      obtain ⟨T2, k1, k2⟩ := create_scripts_go pb eps acc1 out hok
      exact ⟨T1 ++ T2, by rw [k1, g1, List.append_assoc],
        by rw [k2, g2, tarRegularFiles_append, List.append_assoc]⟩

theorem create_scripts_spec (pb : PackageBuilder) (st : PBState)
    (ts : List TarEntry) (st1 : PBState)
    (hok : create_scripts pb st = .ok (ts, st1)) :
    st1.files = st.files ++ tarRegularFiles ts := by
  rw [create_scripts] at hok
  cases hdi : find_dist_info pb.wheel_contents.unpacked with
  | error err =>
    rw [hdi] at hok
    exact absurd hok (by simp [Bind.bind, Except.bind])
  | ok di =>
    rw [hdi] at hok
    simp only [Bind.bind, Except.bind] at hok
    cases hep : findChildFile di "entry_points.txt" with
    | none =>
      rw [hep] at hok
      have h := Except.ok.inj hok
      injection h with h1 h2
      rw [← h1, ← h2]
      simp [tarRegularFiles]
    | some epText =>
      rw [hep] at hok
      dsimp only at hok
      cases hcs : (iniParse (splitStr '\n' epText)).lookup "console_scripts" with
      | none =>
        rw [hcs] at hok
        exact absurd hok (by simp)
      | some eps =>
        rw [hcs] at hok
        obtain ⟨T, k1, k2⟩ := create_scripts_go pb eps ([], st) (ts, st1) hok
        simp only at k1 k2
        rw [k2]
        have : ts = T := by rw [k1]; simp
        rw [this]

theorem write_pep376_record_shape (pb : PackageBuilder) (st : PBState)
    (di : FsEntry) (e : TarEntry)
    (hdi : find_dist_info pb.wheel_contents.unpacked = .ok di)
    (hok : write_pep376_record pb st = .ok e) :
    e.name = site_packages_path pb ++ di.name ++ "/RECORD" ∧
      e.isDir = false := by
  rw [write_pep376_record] at hok
  rw [hdi] at hok
  simp only [Bind.bind, Except.bind] at hok
  cases hrc : findChildFile di "RECORD" with
  | none =>
    rw [hrc] at hok
    dsimp only at hok
    exact absurd hok (by simp)
  | some rc =>
    rw [hrc] at hok
    dsimp only at hok
    have h := (Except.ok.inj hok).symm
    rw [h]
    exact ⟨rfl, rfl⟩

theorem write_index_shape (pb : PackageBuilder) (e : TarEntry)
    (hok : write_index pb = .ok e) :
    e.name = "info/index.json" ∧ e.isDir = false := by
  rw [write_index] at hok
  cases hip : indexPairs pb with
  | error err =>
    rw [hip] at hok
    exact absurd hok (by simp [Bind.bind, Except.bind])
  | ok ix =>
    rw [hip] at hok
    simp only [Bind.bind, Except.bind] at hok
    have h := (Except.ok.inj hok).symm
    rw [h]
    exact ⟨rfl, rfl⟩

/-! ### Claim C1 -/

/-- C1 (amended): for every well-formed source wheel (clean entry names,
exactly one dist-info directory, whose only RECORD-suffixed member is its
top-level RECORD file), after `build` completes, every path in the
emitted `info/files` list is a regular-file entry of the output archive;
conversely the archive's regular-file entries are, as a multiset, exactly
the listed paths plus the three conda metadata files `info/index.json`,
`info/has_prefix` and `info/files`, which the source does not list; and
the list itself is emitted in the exact order the paths were recorded. -/
theorem C1_files_list_amended (pb : PackageBuilder) (tar : List TarEntry)
    (st : PBState) (di : FsEntry)
    (hver : '/' ∉ pb.python_version.data)
    (hclean : cleanListB pb.wheel_contents.unpacked = true)
    (hdi : pb.wheel_contents.unpacked.filter
      (fun e => strEndsWith e.name ".dist-info") = [di])
    (hdid : strEndsWith di.name ".data" = false)
    (hrt : RecordTidy pb di)
    (hb : build pb = .ok (tar, st)) :
    (∀ p ∈ st.files, p ∈ tarRegularFiles tar) ∧
    (tarRegularFiles tar).Perm
      (st.files ++ ["info/index.json", "info/has_prefix", "info/files"]) ∧
    TarEntry.mk "info/files" false (strIntercalate "\n" st.files) ∈ tar := by
  have hrtAll : ∀ e ∈ pb.wheel_contents.unpacked, RecordTidy pb e := by
    intro e he
    by_cases hd : strEndsWith e.name ".dist-info" = true
    · have hmem : e ∈ pb.wheel_contents.unpacked.filter
          (fun x => strEndsWith x.name ".dist-info") :=
        List.mem_filter.mpr ⟨he, hd⟩
      rw [hdi] at hmem
      rcases List.mem_singleton.mp hmem with rfl
      exact hrt
    · intro hcontra
      exact absurd hcontra hd
  rw [build] at hb
  cases h1 : add_module pb ⟨[], [], []⟩ with
  | error err =>
    rw [h1] at hb
    exact absurd hb (by simp [Bind.bind, Except.bind])
  | ok p1 =>
    obtain ⟨t1, st1⟩ := p1
    rw [h1] at hb
    simp only [Bind.bind, Except.bind] at hb
    cases h2 : create_scripts pb st1 with
    | error err =>
      rw [h2] at hb
      exact absurd hb (by simp)
    | ok p2 =>
      obtain ⟨t2, st2⟩ := p2
      rw [h2] at hb
      dsimp only at hb
      cases h3 : write_pep376_record pb st2 with
      | error err =>
        rw [h3] at hb
        exact absurd hb (by simp)
      | ok e3 =>
        rw [h3] at hb
        dsimp only at hb
        cases h4 : write_index pb with
        | error err =>
          rw [h4] at hb
          exact absurd hb (by simp)
        | ok e4 =>
          rw [h4] at hb
          dsimp only at hb
          have hpair := Except.ok.inj hb
          injection hpair with htar hst
          rw [add_module] at h1
          obtain ⟨T1, F1, g1, g2, g3, g4, gperm⟩ := add_module_go pb hver
            pb.wheel_contents.unpacked ([], ⟨[], [], []⟩) (t1, st1)
            hclean hrtAll h1
          simp only [List.nil_append] at g1 g2
          rw [recordExcess_flatten pb pb.wheel_contents.unpacked di hdi hdid,
            ← g1] at gperm
          have hscripts := create_scripts_spec pb st1 t2 st2 h2
          have hfdi := find_dist_info_of_filter pb.wheel_contents.unpacked di hdi
          obtain ⟨he3name, he3dir⟩ :=
            write_pep376_record_shape pb st2 di e3 hfdi h3
          obtain ⟨he4name, he4dir⟩ := write_index_shape pb e4 h4
          have htarReg : tarRegularFiles tar =
              tarRegularFiles t1 ++ tarRegularFiles t2 ++
                [site_packages_path pb ++ di.name ++ "/RECORD",
                  "info/index.json", "info/has_prefix", "info/files"] := by
            rw [← htar, tarRegularFiles_append, tarRegularFiles_append]
            congr 1
            simp [tarRegularFiles, write_has_prefix_list, write_files_list,
              he3dir, he4dir, he3name, he4name]
          have hstfiles : st.files = F1 ++ tarRegularFiles t2 := by
            rw [← hst, hscripts, g2]
          have hperm : (tarRegularFiles tar).Perm
              (st.files ++ ["info/index.json", "info/has_prefix",
                "info/files"]) := by
            rw [htarReg, hstfiles]
            refine List.Perm.symm ?_
            refine ((gperm.append_right (tarRegularFiles t2)).append_right
              ["info/index.json", "info/has_prefix", "info/files"]).trans ?_
            rw [List.append_assoc
              (tarRegularFiles t1 ++
                [site_packages_path pb ++ di.name ++ "/RECORD"])
              (tarRegularFiles t2)
              ["info/index.json", "info/has_prefix", "info/files"]]
            exact perm_shuffle (tarRegularFiles t1)
              [site_packages_path pb ++ di.name ++ "/RECORD"]
              (tarRegularFiles t2)
              ["info/index.json", "info/has_prefix", "info/files"]
          refine ⟨?_, hperm, ?_⟩
          · intro p hp
            have : p ∈ st.files ++ ["info/index.json", "info/has_prefix",
                "info/files"] := List.mem_append.mpr (Or.inl hp)
            exact hperm.symm.mem_iff.mp this
          · rw [← htar]
            have : write_files_list st2 =
                TarEntry.mk "info/files" false
                  (strIntercalate "\n" st.files) := by
              rw [← hst]
              rfl
            rw [← this]
            simp

/-- C1, as stated, is false on the code: for the sample wheel,
`info/index.json` is a regular-file entry of the output archive but does
not appear in the emitted `info/files` list (nor do `info/has_prefix`
and `info/files` themselves). -/
theorem C1_counterexample :
    build samplePB = Except.ok (sampleBuildResult.1, sampleBuildResult.2) ∧
    "info/index.json" ∈ tarRegularFiles sampleBuildResult.1 ∧
    "info/index.json" ∉ sampleBuildResult.2.files :=
  ⟨by rfl, by decide, by decide⟩

/-- Witness for C1 (amended): the amended theorem applies to the sample
wheel built for linux-64 / Python 3.5. -/
theorem C1_files_list_amended_witness :
    build samplePB = Except.ok (sampleBuildResult.1, sampleBuildResult.2) ∧
    (tarRegularFiles sampleBuildResult.1).Perm
      (sampleBuildResult.2.files ++
        ["info/index.json", "info/has_prefix", "info/files"]) :=
  ⟨by rfl,
    (C1_files_list_amended samplePB sampleBuildResult.1 sampleBuildResult.2
      sampleDistInfo (by decide) (by decide) (by rfl) (by decide) (by decide)
      (by rfl)).2.1⟩

/-! ### Claim C2 -/

/-- C2 (code bug in the source): `CaseSensitiveContextParser` misspells
`optionxform` as `optionxfrom`, so configparser's default lower-casing
option transform stays in effect and the console-script key `Foo` is
read as `foo`; the build then emits `bin/foo` instead of `bin/Foo`.
Declaration order is preserved, and a wheel without an entry-points
record synthesizes no scripts and raises no error. -/
theorem C2_entry_point_keys_lowercased :
    (iniParse (splitStr '\n'
        "[console_scripts]\nFoo = pkgmod:main")).lookup "console_scripts" =
      some [("foo", "pkgmod:main")] ∧
    (create_scripts casePB ⟨[], [], []⟩).map (fun r => r.2.files) =
      .ok ["bin/foo"] ∧
    create_scripts noEpPB ⟨[], [], []⟩ = .ok ([], ⟨[], [], []⟩) :=
  ⟨by rfl, by rfl, by rfl⟩

/-! ### Claim C3 -/

/-- C3: `write_pep376_record` copies every source RECORD row unchanged
except rows whose path has more than two segments, first segment ending
in `.data` and second segment `data`; those are rewritten by replacing
the two leading segments with the escape `../..` on windows and
`../../..` elsewhere; afterwards every synthetic launcher row is
appended with the same escape joined to its scripts-relative path, and
non-path columns always pass through unmodified. -/
theorem C3_pep376_rewrite (pb : PackageBuilder) (st : PBState)
    (di : FsEntry) (rc : String)
    (hdi : find_dist_info pb.wheel_contents.unpacked = .ok di)
    (hrc : findChildFile di "RECORD" = some rc) :
    write_pep376_record pb st = .ok
      ⟨site_packages_path pb ++ di.name ++ "/RECORD", false,
        csvWrite ((csvParse rc).map
            (rewritePep376Row
              (if pb.platform = .win then "../.." else "../../..")) ++
          st.py_record_extra.map (fun r =>
            [posixJoin (if pb.platform = .win then "../.." else "../../..")
              r.1, r.2.1, toString r.2.2]))⟩ ∧
    ∀ (p : String) (rest : List String),
      rewritePep376Row (if pb.platform = .win then "../.." else "../../..")
          (p :: rest) =
        (if (splitParts p).length > 2 ∧
            strEndsWith ((splitParts p).headD "") ".data" = true ∧
            (splitParts p).getD 1 "" = "data" then
          posixJoinList (if pb.platform = .win then "../.." else "../../..")
            ((splitParts p).drop 2)
        else p) :: rest := by
  constructor
  · rw [write_pep376_record, hdi]
    simp only [Bind.bind, Except.bind]
    rw [hrc]
  · intro p rest
    by_cases h : (splitParts p).length > 2 ∧
        strEndsWith ((splitParts p).headD "") ".data" = true ∧
        (splitParts p).getD 1 "" = "data"
    · simp only [rewritePep376Row, if_pos h]
    · simp only [rewritePep376Row, if_neg h]

/-- Witness for C3: the rewrite applied to the sample wheel with one
synthetic row produces the expected RECORD, with the `../../..` escape
prefix on linux. -/
theorem C3_pep376_rewrite_witness :
    write_pep376_record samplePB ⟨[], [], [("bin/foo", "sha256=QQ", 5)]⟩ =
      .ok ⟨"lib/python3.5/site-packages/foo-1.0.dist-info/RECORD", false,
        "foo.py,sha256=abc,10\r\nfoo-1.0.dist-info/METADATA,sha256=def,20\r\n../../../bin/foo,sha256=QQ,5\r\n"⟩ := by
  have h := (C3_pep376_rewrite samplePB ⟨[], [], [("bin/foo", "sha256=QQ", 5)]⟩
    sampleDistInfo
    "foo.py,sha256=abc,10\r\nfoo-1.0.dist-info/METADATA,sha256=def,20\r\n"
    (by rfl) (by rfl)).1
  exact h.trans (by rfl)

/-! ### Claim C4 -/

/-- C4: over the fixed candidate list `["3.5", "3.4", "2.7"]`,
`filter_compatible_pythons` returns exactly `["3.5", "3.4"]` in that
order when `Requires-Python` declares "3 or newer" (a value starting
with `3`, `>3` or `>=3`), and returns all three candidates in the fixed
order when `Requires-Python` is absent and the declared `Tag` prefixes
are mixed or unrecognized. -/
theorem C4_filter_compatible_pythons (wc : WheelContents) :
    (∀ rp rest, wc.metadata.lookup "Requires-Python" = some (rp :: rest) →
      (strStartsWith rp "3" = true ∨ strStartsWith rp ">3" = true ∨
        strStartsWith rp ">=3" = true) →
      filter_compatible_pythons wc = .ok ["3.5", "3.4"]) ∧
    (∀ di wheelTxt md tags,
      wc.metadata.lookup "Requires-Python" = none →
      find_dist_info wc.unpacked = .ok di →
      findChildFile di "WHEEL" = some wheelTxt →
      _read_metadata wheelTxt = .ok md →
      md.lookup "Tag" = some tags →
      (tags.map fun t => (splitStr '-' t).headD "").dedup ≠ ["py3"] →
      (tags.map fun t => (splitStr '-' t).headD "").dedup ≠ ["py2"] →
      filter_compatible_pythons wc = .ok ["3.5", "3.4", "2.7"]) := by
  constructor
  · intro rp rest h1 h2
    rw [filter_compatible_pythons, h1]
    dsimp only
    rw [if_pos h2]
    simp only [Bind.bind, Except.bind]
    rfl
  · intro di wheelTxt md tags hreq hdi hw hmd htags hne3 hne2
    rw [filter_compatible_pythons, hreq]
    dsimp only
    rw [hdi]
    simp only [Bind.bind, Except.bind]
    rw [hw]
    dsimp only
    rw [hmd]
    dsimp only
    rw [htags]
    dsimp only
    rw [if_neg hne3, if_neg hne2]
    rfl

/-- Witness for C4: a `Requires-Python: >=3` wheel keeps only the 3.x
candidates; the sample wheel (no Requires-Python, tags `py2`+`py3`)
keeps all three. -/
theorem C4_filter_compatible_pythons_witness :
    filter_compatible_pythons py3ReqWC = .ok ["3.5", "3.4"] ∧
    filter_compatible_pythons sampleWC = .ok ["3.5", "3.4", "2.7"] :=
  ⟨(C4_filter_compatible_pythons py3ReqWC).1 ">=3" [] (by rfl)
      (Or.inr (Or.inr (by decide))),
    (C4_filter_compatible_pythons sampleWC).2 sampleDistInfo
      "Wheel-Version: 1.0\nRoot-Is-Purelib: true\nTag: py2-none-any\nTag: py3-none-any\n"
      [("Wheel-Version", ["1.0"]), ("Root-Is-Purelib", ["true"]),
        ("Tag", ["py2-none-any", "py3-none-any"])]
      ["py2-none-any", "py3-none-any"]
      (by rfl) (by rfl) (by rfl) (by rfl) (by rfl) (by decide) (by decide)⟩

/-! ### Claim C5 -/

/-- C5: `write_index` produces `info/index.json` whose `arch` is
`x86_64` exactly when the bitness is 64 and `x86` otherwise, whose
`build` is `py` plus the dotless runtime version plus `_0`, whose
`depends` holds exactly `python {version}*`, whose name and version are
copied from the metadata, whose license is `UNKNOWN`, whose platform is
the platform's short name and whose subdir is `{platform}-{bitness}`;
the record is serialized with its keys in sorted order. -/
theorem C5_write_index (pb : PackageBuilder) (n v : String)
    (r1 r2 : List String)
    (hn : pb.wheel_contents.metadata.lookup "Name" = some (n :: r1))
    (hv : pb.wheel_contents.metadata.lookup "Version" = some (v :: r2)) :
    write_index pb = .ok ⟨"info/index.json", false,
      jsonDumpSorted [
        ("arch", .str (if pb.bitness = "64" then "x86_64" else "x86")),
        ("build", .str ("py" ++ removeChar '.' pb.python_version ++ "_0")),
        ("build_number", .num 0),
        ("depends", .arr [.str ("python " ++ pb.python_version ++ "*")]),
        ("license", .str "UNKNOWN"),
        ("name", .str n),
        ("platform", .str pb.platform.name),
        ("subdir", .str (pb.platform.name ++ "-" ++ pb.bitness)),
        ("version", .str v)]⟩ ∧
    (indexPairs pb).map (fun ix => (sortByKey ix).map Prod.fst) =
      .ok ["arch", "build", "build_number", "depends", "license", "name",
        "platform", "subdir", "version"] ∧
    List.Pairwise (fun a b => strLeB a b = true)
      ["arch", "build", "build_number", "depends", "license", "name",
        "platform", "subdir", "version"] := by
  have hbuild : ∀ s : String, s ++ "_" ++ toString build_no = s ++ "_0" := by
    intro s
    apply String.ext
    simp [String.data_append, List.append_assoc,
      show (toString build_no : String).data = ['0'] from rfl,
      show ("_" : String).data = ['_'] from rfl,
      show ("_0" : String).data = ['_', '0'] from rfl]
  have hname : meta0 pb.wheel_contents.metadata "Name" = .ok n := by
    unfold meta0
    rw [hn]
  have hvers : meta0 pb.wheel_contents.metadata "Version" = .ok v := by
    unfold meta0
    rw [hv]
  refine ⟨?_, ?_, by decide⟩
  · rw [write_index, indexPairs, hname]
    simp only [Bind.bind, Except.bind]
    rw [hvers]
    dsimp only
    rw [hbuild]
    rfl
  · rw [indexPairs, hname]
    simp only [Bind.bind, Except.bind]
    rw [hvers]
    dsimp only
    rfl

/-- Witness for C5: the index record of the sample wheel built for
linux-64 / Python 3.5. -/
theorem C5_write_index_witness :
    write_index samplePB = .ok ⟨"info/index.json", false,
      "\x7b\x22arch\x22: \x22x86_64\x22, \x22build\x22: \x22py35_0\x22, \x22build_number\x22: 0, \x22depends\x22: [\x22python 3.5*\x22], \x22license\x22: \x22UNKNOWN\x22, \x22name\x22: \x22foo\x22, \x22platform\x22: \x22linux\x22, \x22subdir\x22: \x22linux-64\x22, \x22version\x22: \x221.0\x22\x7d"⟩ :=
  (C5_write_index samplePB "foo" "1.0" [] [] (by rfl) (by rfl)).1.trans
    (by rfl)

/-! ### Claim C6 -/

/-- C6: after any sequence of `record_file` calls, `info/has_prefix`
contains exactly one line `<placeholder> text <path>`, with the path
verbatim, for each path recorded with the has-prefix flag set, in
recording order, and no line for any path recorded without the flag. -/
theorem C6_has_prefix_list (L : List (String × Bool)) (st0 : PBState) :
    (L.foldl (fun st pr => record_file st pr.1 pr.2) st0).has_prefix_files =
      st0.has_prefix_files ++ (L.filter (·.2)).map (·.1) ∧
    (write_has_prefix_list
        (L.foldl (fun st pr => record_file st pr.1 pr.2) st0)).contents =
      strIntercalate "\n"
        ((st0.has_prefix_files ++ (L.filter (·.2)).map (·.1)).map
          fun path => PREFIX_PLACEHOLDER ++ " text " ++ path) := by
  have key : ∀ (M : List (String × Bool)) (st : PBState),
      (M.foldl (fun st pr => record_file st pr.1 pr.2) st).has_prefix_files =
        st.has_prefix_files ++ (M.filter (·.2)).map (·.1) := by
    intro M
    induction M with
    | nil => intro st; simp
    | cons pr M ih =>
      intro st
      rw [List.foldl_cons, ih]
      obtain ⟨p, b⟩ := pr
      cases b
      · simp [record_file, List.filter_cons]
      · simp [record_file, List.filter_cons]
  refine ⟨key L st0, ?_⟩
  simp only [write_has_prefix_list, key L st0]

/-! ### Claim C7 -/

theorem scripts_fold_ok (pb : PackageBuilder) :
    ∀ (eps : List (String × String)) (acc : List TarEntry × PBState),
      (∀ pr ∈ eps, countColon pr.2 = 1) →
      ∃ out, eps.foldlM (createScript1 pb) acc = .ok out
  | [], acc, _ => ⟨acc, by simp [pure, Except.pure]⟩
  | pr :: eps, acc, hall => by
    have h1 := hall pr (List.mem_cons_self pr eps)
    obtain ⟨name, ep⟩ := pr
    have hstep : ∃ out1, createScript1 pb acc (name, ep) = .ok out1 := by
      rw [createScript1, if_neg (by simpa using h1)]
      by_cases hplat : pb.platform = Platform.win
      · rw [if_pos hplat]; exact ⟨_, rfl⟩
      · rw [if_neg hplat]; exact ⟨_, rfl⟩
    obtain ⟨out1, hout1⟩ := hstep
    obtain ⟨out, hout⟩ := scripts_fold_ok pb eps out1
      (fun x hx => hall x (List.mem_cons_of_mem _ hx))
    refine ⟨out, ?_⟩
    rw [List.foldlM_cons, hout1]
    exact hout

theorem scripts_fold_error (pb : PackageBuilder) :
    ∀ (eps : List (String × String)) (acc : List TarEntry × PBState),
      (∃ pr ∈ eps, countColon pr.2 ≠ 1) →
      ∃ err, eps.foldlM (createScript1 pb) acc = .error err
  | [], _, hbad => absurd hbad (by simp)
  | pr :: eps, acc, hbad => by
    obtain ⟨name, ep⟩ := pr
    by_cases h1 : countColon ep ≠ 1
    · refine ⟨.valueError ("Bad entry point: \x27" ++ ep ++ "\x27"), ?_⟩
      rw [List.foldlM_cons, createScript1, if_pos h1]
      rfl
    · have hstep : ∃ out1, createScript1 pb acc (name, ep) = .ok out1 := by
        rw [createScript1, if_neg h1]
        by_cases hplat : pb.platform = Platform.win
        · rw [if_pos hplat]; exact ⟨_, rfl⟩
        · rw [if_neg hplat]; exact ⟨_, rfl⟩
      obtain ⟨out1, hout1⟩ := hstep
      have hbad2 : ∃ x ∈ eps, countColon x.2 ≠ 1 := by
        obtain ⟨x, hx, hxc⟩ := hbad
        rcases List.mem_cons.mp hx with rfl | hx2
        · exact absurd hxc h1
        · exact ⟨x, hx2, hxc⟩
      obtain ⟨err, herr⟩ := scripts_fold_error pb eps out1 hbad2
      refine ⟨err, ?_⟩
      rw [List.foldlM_cons, hout1]
      exact herr

/-- C7: launcher synthesis fails with the malformed-entry-point error
exactly when a console entry-point value does not contain exactly one
`:` separator, and on that error the build for that target fails without
producing an archive. -/
theorem C7_malformed_entry_point :
    (∀ (pb : PackageBuilder) (acc : List TarEntry × PBState) (name ep : String),
      countColon ep ≠ 1 →
      createScript1 pb acc (name, ep) =
        .error (.valueError ("Bad entry point: \x27" ++ ep ++ "\x27"))) ∧
    (∀ (pb : PackageBuilder) (acc : List TarEntry × PBState) (name ep : String),
      countColon ep = 1 →
      ∃ out, createScript1 pb acc (name, ep) = .ok out) ∧
    (∀ (pb : PackageBuilder) (st : PBState) (di : FsEntry)
      (epText : String) (eps : List (String × String)),
      find_dist_info pb.wheel_contents.unpacked = .ok di →
      findChildFile di "entry_points.txt" = some epText →
      (iniParse (splitStr '\n' epText)).lookup "console_scripts" = some eps →
      ((∀ pr ∈ eps, countColon pr.2 = 1) →
        ∃ out, create_scripts pb st = .ok out) ∧
      ((∃ pr ∈ eps, countColon pr.2 ≠ 1) →
        ∃ err, create_scripts pb st = .error err)) ∧
    (∀ (pb : PackageBuilder) (ts1 : List TarEntry) (st1 : PBState)
      (di : FsEntry) (epText : String) (eps : List (String × String)),
      add_module pb ⟨[], [], []⟩ = .ok (ts1, st1) →
      find_dist_info pb.wheel_contents.unpacked = .ok di →
      findChildFile di "entry_points.txt" = some epText →
      (iniParse (splitStr '\n' epText)).lookup "console_scripts" = some eps →
      (∃ pr ∈ eps, countColon pr.2 ≠ 1) →
      ∃ err, build pb = .error err) := by
  have part1 : ∀ (pb : PackageBuilder) (acc : List TarEntry × PBState)
      (name ep : String), countColon ep ≠ 1 →
      createScript1 pb acc (name, ep) =
        .error (.valueError ("Bad entry point: \x27" ++ ep ++ "\x27")) := by
    intro pb acc name ep h
    rw [createScript1, if_pos h]
  have part3 : ∀ (pb : PackageBuilder) (st : PBState) (di : FsEntry)
      (epText : String) (eps : List (String × String)),
      find_dist_info pb.wheel_contents.unpacked = .ok di →
      findChildFile di "entry_points.txt" = some epText →
      (iniParse (splitStr '\n' epText)).lookup "console_scripts" = some eps →
      ((∀ pr ∈ eps, countColon pr.2 = 1) →
        ∃ out, create_scripts pb st = .ok out) ∧
      ((∃ pr ∈ eps, countColon pr.2 ≠ 1) →
        ∃ err, create_scripts pb st = .error err) := by
    intro pb st di epText eps hdi hep hcs
    have hred : create_scripts pb st =
        eps.foldlM (createScript1 pb) ([], st) := by
      rw [create_scripts, hdi]
      simp only [Bind.bind, Except.bind]
      rw [hep]
      dsimp only
      rw [hcs]
    constructor
    · intro hall
      rw [hred]
      exact scripts_fold_ok pb eps ([], st) hall
    · intro hbad
      rw [hred]
      exact scripts_fold_error pb eps ([], st) hbad
  refine ⟨part1, ?_, part3, ?_⟩
  · intro pb acc name ep h1
    rw [createScript1, if_neg (by simpa using h1)]
    by_cases hplat : pb.platform = Platform.win
    · rw [if_pos hplat]; exact ⟨_, rfl⟩
    · rw [if_neg hplat]; exact ⟨_, rfl⟩
  · intro pb ts1 st1 di epText eps hmod hdi hep hcs hbad
    obtain ⟨err, herr⟩ := (part3 pb st1 di epText eps hdi hep hcs).2 hbad
    refine ⟨err, ?_⟩
    rw [build, hmod]
    simp only [Bind.bind, Except.bind]
    rw [herr]

/-- Witness for C7: building the malformed-entry-point wheel
(`foo = badvalue`, zero separators) fails; the per-entry check raises
the ValueError and no archive results. -/
theorem C7_malformed_entry_point_witness :
    createScript1 badEpPB ([], ⟨[], [], []⟩) ("foo", "badvalue") =
      .error (.valueError "Bad entry point: \x27badvalue\x27") ∧
    ∃ err, build badEpPB = .error err :=
  ⟨(C7_malformed_entry_point.1 badEpPB ([], ⟨[], [], []⟩) "foo" "badvalue"
      (by decide)).trans (by rfl),
    C7_malformed_entry_point.2.2.2 badEpPB badEpModuleResult.1
      badEpModuleResult.2 badEpDistInfo "[console_scripts]\nfoo = badvalue\n"
      [("foo", "badvalue")] (by rfl) (by rfl) (by rfl) (by rfl)
      ⟨("foo", "badvalue"), by decide, by decide⟩⟩

/-! ### Claim C8 -/

/-- C8: `check` fails with the unsupported-format error when the
declared `Wheel-Version` is anything other than `1.0`, or when the
package is not marked `Root-Is-Purelib: true`; in `main` this happens
right after reading the wheel, before the platform loop, so no
BuildTarget's build ever starts (the driver returns the error and no
built package). -/
theorem C8_unsupported_format (unpacked : List FsEntry)
    (wc : WheelContents) (di : FsEntry) (dd : Option FsEntry)
    (wheelTxt : String) (md : List (String × List String))
    (wv : String) (r : List String)
    (hmk : mkWheelContents unpacked = .ok wc)
    (hscan : checkScan wc.unpacked none none = .ok (some di, dd))
    (hw : findChildFile di "WHEEL" = some wheelTxt)
    (hmd : _read_metadata wheelTxt = .ok md)
    (hwv : md.lookup "Wheel-Version" = some (wv :: r)) :
    (wv ≠ "1.0" →
      check wc = .error (.badWheel
        "wheel2conda only knows about wheel format 1.0") ∧
      ∀ sha exe, mainModel unpacked sha exe = .error (.badWheel
        "wheel2conda only knows about wheel format 1.0")) ∧
    (∀ pl rs, wv = "1.0" →
      md.lookup "Root-Is-Purelib" = some (pl :: rs) →
      pyLower pl ≠ "true" →
      check wc = .error (.badWheel
        "Can\x27t currently autoconvert packages with platlib") ∧
      ∀ sha exe, mainModel unpacked sha exe = .error (.badWheel
        "Can\x27t currently autoconvert packages with platlib")) := by
  have hwv0 : meta0 md "Wheel-Version" = .ok wv := by
    unfold meta0
    rw [hwv]
  constructor
  · intro hne
    have hchk : check wc = .error (.badWheel
        "wheel2conda only knows about wheel format 1.0") := by
      rw [check, hscan]
      simp only [Bind.bind, Except.bind]
      rw [hw]
      dsimp only
      rw [hmd]
      dsimp only
      rw [hwv0]
      dsimp only
      rw [if_pos hne]
    refine ⟨hchk, ?_⟩
    intro sha exe
    rw [mainModel, hmk]
    simp only [Bind.bind, Except.bind]
    rw [hchk]
  · intro pl rs h10 hpl hplow
    have hpl0 : meta0 md "Root-Is-Purelib" = .ok pl := by
      unfold meta0
      rw [hpl]
    have hchk : check wc = .error (.badWheel
        "Can\x27t currently autoconvert packages with platlib") := by
      rw [check, hscan]
      simp only [Bind.bind, Except.bind]
      rw [hw]
      dsimp only
      rw [hmd]
      dsimp only
      rw [hwv0]
      dsimp only
      rw [if_neg (by simpa using h10), hpl0]
      dsimp only
      rw [if_pos hplow]
    refine ⟨hchk, ?_⟩
    intro sha exe
    rw [mainModel, hmk]
    simp only [Bind.bind, Except.bind]
    rw [hchk]

/-- Witness for C8: the wheel declaring format version 2.0 makes `main`
fail with the unsupported-format error before any build. -/
theorem C8_unsupported_format_witness :
    mainModel badVersionUnpacked dummySha dummyExe =
      .error (.badWheel "wheel2conda only knows about wheel format 1.0") :=
  ((C8_unsupported_format badVersionUnpacked
      ⟨badVersionUnpacked, sampleMeta⟩ badVersionDistInfo none
      "Wheel-Version: 2.0\nRoot-Is-Purelib: true\nTag: py3-none-any\n"
      [("Wheel-Version", ["2.0"]), ("Root-Is-Purelib", ["true"]),
        ("Tag", ["py3-none-any"])] "2.0" []
      (by rfl) (by rfl) (by rfl) (by rfl) (by rfl)).1
    (by decide)).2 dummySha dummyExe

/-! ### Claim C9 -/

/-- C9: for a windows target, each console entry point `name` yields a
script stored as `name ++ "-script.py"` under the scripts root and a
launcher binary `name ++ ".exe"` whose bytes are exactly the pre-built
stub resource for `x64` when the bitness is 64 and `x86` otherwise; the
binary's RECORD row carries `sha256=` plus the unpadded URL-safe base64
digest freshly computed from those exact bytes together with their
length, and the binary is not flagged as containing the install-prefix
placeholder (only the script is). -/
theorem C9_windows_launcher (pb : PackageBuilder) (st : PBState)
    (name contents : String) (hwin : pb.platform = .win) :
    (_write_script_windows pb st name contents).1 =
      [⟨"Scripts/" ++ (name ++ "-script.py"), false, contents⟩,
       ⟨"Scripts/" ++ name ++ ".exe", false,
         pb.find_exe (if pb.bitness = "64" then "x64" else "x86")⟩] ∧
    (_write_script_windows pb st name contents).2.py_record_extra =
      st.py_record_extra ++
        [("Scripts/" ++ (name ++ "-script.py"),
          "sha256=" ++ ⟨rstripEq (b64urlEncode (pb.sha256 contents))⟩,
          contents.utf8ByteSize),
         ("Scripts/" ++ name ++ ".exe",
          "sha256=" ++ ⟨rstripEq (b64urlEncode (pb.sha256
            (pb.find_exe (if pb.bitness = "64" then "x64" else "x86"))))⟩,
          (pb.find_exe
            (if pb.bitness = "64" then "x64" else "x86")).utf8ByteSize)] ∧
    (_write_script_windows pb st name contents).2.has_prefix_files =
      st.has_prefix_files ++ ["Scripts/" ++ (name ++ "-script.py")] := by
  refine ⟨?_, ?_, ?_⟩ <;>
    simp [_write_script_windows, _write_script_unix, scripts_path, hwin,
      record_file, _py_record_file]

/-- Witness for C9: the sample windows-64 builder produces the expected
script and launcher for entry point `foo`. -/
theorem C9_windows_launcher_witness :
    (_write_script_windows samplePBWin ⟨[], [], []⟩ "foo" "DATA").1 =
      [⟨"Scripts/foo-script.py", false, "DATA"⟩,
       ⟨"Scripts/foo.exe", false, "EXE-x64"⟩] :=
  ((C9_windows_launcher samplePBWin ⟨[], [], []⟩ "foo" "DATA"
    (by rfl)).1).trans (by rfl)

/-! ### Claim C10 -/

/-- C10: validation counts separators only; any entry-point value with
exactly one `:` proceeds without error, even when the module or function
part is empty, and (off windows) produces a launcher script for that
degenerate module/function pair. -/
theorem C10_degenerate_entry_point (pb : PackageBuilder)
    (acc : List TarEntry × PBState) (name ep : String)
    (h1 : countColon ep = 1) :
    ∃ out, createScript1 pb acc (name, ep) = .ok out ∧
      (pb.platform ≠ .win →
        out.1 = acc.1 ++ [⟨scripts_path pb ++ name, false,
          script_template (PREFIX_PLACEHOLDER ++ "/bin/python")
            ((splitStr ':' ep).headD "") ((splitStr ':' ep).getD 1 "")⟩]) := by
  rw [createScript1, if_neg (by simpa using h1)]
  by_cases hplat : pb.platform = Platform.win
  · rw [if_pos hplat]
    exact ⟨_, rfl, fun hc => absurd hplat hc⟩
  · rw [if_neg hplat]
    refine ⟨_, rfl, fun _ => ?_⟩
    simp [_write_script_unix]

/-- Witness for C10: the degenerate entry point `":main"` (empty module
part) synthesizes a script without error. -/
theorem C10_degenerate_entry_point_witness :
    ∃ out, createScript1 degenerateEpPB ([], ⟨[], [], []⟩) ("foo", ":main") =
        .ok out ∧
      out.1 = [⟨"bin/foo", false,
        script_template (PREFIX_PLACEHOLDER ++ "/bin/python") "" "main"⟩] := by
  obtain ⟨out, hok, hsc⟩ := C10_degenerate_entry_point degenerateEpPB
    ([], ⟨[], [], []⟩) "foo" ":main" (by decide)
  exact ⟨out, hok, (hsc (by decide)).trans (by rfl)⟩

end Wheel2Conda
